import Mathlib

/-!
# miaospeed: probe engine (`service/macros/ping`) and metric registry (`service/matrices`)

A shallow embedding of `ping.go`, `matrices.go` and `packetloss/matrix.go`.

* Go functions with side effects (clock, sockets, `net/http`) are state passing functions over a
  world state `σ`; every primitive of the environment is a field of `World σ` or `Vendor σ`.
* A Go panic is the value `none` of an `Option` result.
* `uint16` / `uint` / `int` values are natural numbers or integers; the one place where the
  program narrows (`uint16(...)`) is the function `uint16`.
* `float64` values are `Float64`: exact rationals together with the IEEE-754 rounding function.
-/

namespace MiaoSpeed

/-! ## Go values -/

/-- Go `error` values, identified by their message. -/
abbrev Error := String

/-- A Go slice value: `nil` is the nil slice, `mk l` a non-nil slice holding `l`. -/
inductive Slice (α : Type) where
  | nil : Slice α
  | mk (elems : List α) : Slice α
  deriving DecidableEq, Repr

namespace Slice

/-- The elements of a slice, in order. -/
def toList {α : Type} : Slice α → List α
  | nil => []
  | mk l => l

/-- Go `len(s)`. -/
def len {α : Type} (s : Slice α) : Nat := s.toList.length

/-- Go `append(s, x)`: the result is never nil. -/
def append {α : Type} (s : Slice α) (x : α) : Slice α := mk (s.toList ++ [x])

end Slice

/-- Go conversion `uint16(x)` of a signed integer: the low 16 bits. -/
def uint16 (x : Int) : Nat := (x % 65536).toNat

/-- Go `strings.HasPrefix(s, pre)`. -/
def HasPrefix (s pre : String) : Bool := pre.data.isPrefixOf s.data

/-! ## float64 -/

/-- IEEE-754 binary64 values. Finite values are carried as exact rationals; the sign of zero and
NaN payloads are not distinguished (the program never produces a negative zero). -/
inductive Float64 where
  | nan : Float64
  | inf (negative : Bool) : Float64
  | fin (q : ℚ) : Float64
  deriving DecidableEq

namespace Float64

/-- Nearest integer to `m`, ties to even. -/
def roundHalfEven (m : ℚ) : ℤ :=
  let f := ⌊m⌋
  let d := m - f
  if d < 1 / 2 then f else if 1 / 2 < d then f + 1 else if f % 2 = 0 then f else f + 1

/-- Round an exact value to binary64 (round to nearest, ties to even; 53 bit significand,
exponent range `-1022 .. 1023`, gradual underflow, overflow to infinity). -/
def round (x : ℚ) : Float64 :=
  if x = 0 then fin 0 else
    let a := |x|
    let e := max (Int.log 2 a) (-1022)
    let ulp : ℚ := 2 ^ (e - 52)
    let r : ℚ := roundHalfEven (a / ulp) * ulp
    if (2 : ℚ) ^ (1024 : ℤ) ≤ r then inf (decide (x < 0)) else fin (if x < 0 then -r else r)

/-- Go conversion `float64(n)` of an unsigned integer. -/
def ofNat (n : Nat) : Float64 := round n

/-- Go `x / y` on float64. -/
def div : Float64 → Float64 → Float64
  | nan, _ => nan
  | _, nan => nan
  | inf _, inf _ => nan
  | inf s, fin b => inf (s != decide (b < 0))
  | fin _, inf _ => fin 0
  | fin a, fin b =>
    if b = 0 then (if a = 0 then nan else inf (decide (a < 0))) else round (a / b)

/-- Go `x * y` on float64. -/
def mul : Float64 → Float64 → Float64
  | nan, _ => nan
  | _, nan => nan
  | inf s, inf t => inf (s != t)
  | inf s, fin b => if b = 0 then nan else inf (s != decide (b < 0))
  | fin a, inf t => if a = 0 then nan else inf (decide (a < 0) != t)
  | fin a, fin b => round (a * b)

end Float64

/-! ## The environment of the probes -/

/-- A connection handle (`net.Conn` together with the `bufio.Reader` wrapped around it). -/
abbrev Conn := Nat

/-- A `context.Context` built by `context.WithTimeout`: its absolute deadline, in nanoseconds. -/
structure Context where
  deadline : Int
  deriving DecidableEq, Repr

/-- The parts of a parsed `*url.URL` that the plaintext probe reads. -/
structure URL where
  EscapedPath : String
  QueryEncoded : String
  Hostname : String
  deriving DecidableEq, Repr

/-- What one `Read(p)` call returns: `(n, err)`. -/
structure ReadResult where
  n : Nat
  err : Option Error
  deriving DecidableEq, Repr

/-- The fields of `*http.Response` that the probes read. `TLS` is `none` for a nil
`resp.TLS`, otherwise the value of `resp.TLS.HandshakeComplete`. -/
structure Response where
  StatusCode : Int
  TLS : Option Bool
  deriving DecidableEq, Repr

/-- Values of the four variables written by the `httptrace` hooks of `pingViaTrace` when
`RoundTrip` returns (a hook that never fired leaves its variable at 0). -/
structure TraceTimes where
  tlsStart : Int
  tlsEnd : Int
  writeStart : Int
  writeEnd : Int
  deriving DecidableEq, Repr

/-- Modelled from the spec: `interfaces.Vendor` (package `interfaces`) is the transport under
test; the probes only use its dial capability `DialTCP(ctx, url, interfaces.ROptionsTCP)`. A
failed dial returns the error, a successful one the connection. -/
structure Vendor (σ : Type) where
  DialTCP : Context → String → σ → Except Error Conn × σ

/-- Everything outside the program: the clock, the sockets and the Go standard library, as
functions of a world state `σ`.

* `now` is `time.Now()` in nanoseconds;
* `urlParse` is `url.Parse` (`none` when it returns an error, hence a nil URL);
* `payload` is `structs.X(preconfigs.NETCAT_HTTP_PAYLOAD, pathAndQuery, host, utils.VERSION)`;
* `newRequest` is the error of `http.NewRequest("GET", url, nil)`;
* `roundTrip` is `transport.RoundTrip(req)` for the transport of `pingViaTrace`, given the dial
  function it was configured with;
* `connWrite`, `connSetDeadline`, `connClose` are the methods of `net.Conn`;
* `readerReadByte`, `readerPeek`, `readerRead` are the methods of the `bufio.Reader` on the
  connection, `readerDrain` is the loop `for reader.Buffered() > 0 { reader.ReadLine() }`, whose
  results are all discarded;
* `httpReadResponse limit src` is `http.ReadResponse(bufio.NewReader(io.LimitReader(r, limit)), nil)`
  for a reader `r` whose `Read` is `src`;
* `bodyClose` is `resp.Body.Close()`. -/
structure World (σ : Type) where
  now : σ → Int
  urlParse : String → Option URL
  payload : String → String → String
  newRequest : String → Option Error
  roundTrip : (σ → Except Error Conn × σ) → String → σ → (TraceTimes × Except Error Response) × σ
  connWrite : Conn → String → σ → Option Error × σ
  connSetDeadline : Conn → Int → σ → σ
  connClose : Conn → σ → σ
  readerReadByte : Conn → σ → σ
  readerDrain : Conn → σ → σ
  readerPeek : Conn → Nat → σ → Option Error × σ
  readerRead : Conn → Nat → σ → ReadResult × σ
  httpReadResponse : Nat → (Nat → σ → ReadResult × σ) → σ → Except Error Response × σ
  bodyClose : σ → σ

/-- One second, in nanoseconds (`time.Second`). -/
def second : Int := 1000000000

/-- Go `t.UnixMilli()` of a time given in nanoseconds. -/
def UnixMilli (t : Int) : Int := t / 1000000

/-- Go `d.Milliseconds()` of a duration given in nanoseconds (integer division truncates). -/
def Milliseconds (d : Int) : Int := Int.tdiv d 1000000

/-- Wrap an integer into the range of `int64`. -/
def wrapInt64 (x : Int) : Int := (x + 2 ^ 63) % 2 ^ 64 - 2 ^ 63

/-- The context of one attempt, `context.WithTimeout(context.Background(),
time.Duration(timeout)*time.Millisecond)`, created at world state `s`. -/
def contextWithTimeout {σ : Type} (W : World σ) (timeout : Nat) (s : σ) : Context :=
  ⟨W.now s + wrapInt64 (wrapInt64 timeout * 1000000)⟩

/-! ## ping.go -/

/-- The struct `timeoutReader`: the `Read` of the wrapped `*bufio.Reader`, and the deadline. -/
structure timeoutReader (σ : Type) where
  r : Nat → σ → ReadResult × σ
  timeout : Int

/-- The method `(*timeoutReader).Read`; `p` is `len(p)`. -/
def timeoutReader.Read {σ : Type} (W : World σ) (tr : timeoutReader σ) (p : Nat) (s : σ) :
    ReadResult × σ :=
  if tr.timeout < W.now s then (⟨0, some "read timeout"⟩, s) else tr.r p s

/-- The function `saferParseHTTPStatus`: returns `(status, err)`. -/
def saferParseHTTPStatus {σ : Type} (W : World σ) (reader : Conn) (s : σ) :
    (Int × Option Error) × σ :=
  let tr : timeoutReader σ := ⟨W.readerRead reader, W.now s + 5 * second⟩
  match W.httpReadResponse (1024 * 1024) (timeoutReader.Read W tr) s with
  | (Except.error err, s1) => ((0, some err), s1)
  | (Except.ok resp, s1) => ((resp.StatusCode, none), W.bodyClose s1)

/-- The four results `(uint16, uint16, int, error)` of a probe. -/
structure ProbeResult where
  fst : Nat
  snd : Nat
  code : Int
  err : Option Error
  deriving DecidableEq, Repr

/-- The function `pingViaTrace`. The call of `utils.DBlackhole` only discards its arguments and
is left out, and so is `connEnd`, which nothing else reads. -/
def pingViaTrace {σ : Type} (W : World σ) (ctx : Context) (p : Vendor σ) (url : String) (s : σ) :
    ProbeResult × σ :=
  match W.newRequest url with
  | some err => (⟨0, 0, 0, some err⟩, s)
  | none =>
    let connStart := UnixMilli (W.now s)
    match W.roundTrip (p.DialTCP ctx url) url s with
    | ((_, Except.error err), s1) => (⟨0, 0, 0, some err⟩, s1)
    | ((t, Except.ok resp), s1) =>
      let s2 := W.bodyClose s1
      if !HasPrefix url "https:" then
        (⟨uint16 (t.writeStart - connStart), uint16 (t.writeEnd - connStart), resp.StatusCode,
          none⟩, s2)
      else if resp.TLS = some true then
        (⟨uint16 (t.writeEnd - t.tlsEnd), uint16 (t.writeEnd - connStart), resp.StatusCode,
          none⟩, s2)
      else (⟨0, 0, 0, some "cannot extract payload from response"⟩, s2)

/-- The function `pingViaNetCat`. The result is `none` when the call panics: `url.Parse` failed,
so `purl` is nil and `purl.EscapedPath()` dereferences it. -/
def pingViaNetCat {σ : Type} (W : World σ) (ctx : Context) (p : Vendor σ) (url : String) (s : σ) :
    Option (ProbeResult × σ) :=
  match W.urlParse url with
  | none => none
  | some purl =>
    let payload := W.payload (purl.EscapedPath ++ "?" ++ purl.QueryEncoded) purl.Hostname
    let connStart := W.now s
    match p.DialTCP ctx url s with
    | (Except.error err, s1) => some (⟨0, 0, 0, some ("dial failed: " ++ err)⟩, s1)
    | (Except.ok conn, s1) =>
      let s2 := W.connSetDeadline conn (W.now s1 + 6 * second) s1
      match W.connWrite conn payload s2 with
      | (some err, s3) =>
        some (⟨0, 0, 0, some ("write failed 1: " ++ err)⟩, W.connClose conn s3)
      | (none, s3) =>
        let s4 := W.readerReadByte conn s3
        let connRTT := Milliseconds (W.now s4 - connStart)
        let s5 := W.readerDrain conn s4
        let tcpStart := W.now s5
        match W.connWrite conn payload s5 with
        | (some err, s6) =>
          some (⟨0, 0, 0, some ("write failed 2: " ++ err)⟩, W.connClose conn s6)
        | (none, s6) =>
          match W.readerPeek conn 1 s6 with
          | (some err, s7) =>
            some (⟨0, 0, 0, some ("read failed 3: " ++ err)⟩, W.connClose conn s7)
          | (none, s7) =>
            let tcpRTT := Milliseconds (W.now s7 - tcpStart)
            match saferParseHTTPStatus W conn s7 with
            | ((_, some _), s8) => some (⟨uint16 tcpRTT, 0, 0, none⟩, W.connClose conn s8)
            | ((statusCode, none), s8) =>
              some (⟨uint16 tcpRTT, uint16 connRTT, statusCode, none⟩, W.connClose conn s8)

/-- The function `performPing`. -/
def performPing {σ : Type} (W : World σ) (ctx : Context) (p : Vendor σ) (url : String) (s : σ) :
    Option (ProbeResult × σ) :=
  if HasPrefix url "https:" then some (pingViaTrace W ctx p url s)
  else pingViaNetCat W ctx p url s

/-- Modelled from the spec: the declaration of the struct `Ping` is in a file of package `ping`
that is not among the files embedded here. The fields are those `ping.go` assigns; following §3 of
the specification the latency fields are 16 bit unsigned integers, the lists are slices and
`PacketLoss` is a `float64` (it is assigned a `float64` expression). -/
structure Ping where
  RTT : Nat
  Request : Nat
  PacketLoss : Float64
  Jitter : Nat
  RTTSD : Nat
  RequestSD : Nat
  MaxRTT : Nat
  MaxRequest : Nat
  RTTList : Slice Nat
  RequestList : Slice Nat
  StatusCodes : Slice Int
  deriving DecidableEq

/-- The statistics helpers `calcAvgPing` and `calcStdDevPing`. `ping.go` calls them, but their
definitions are elsewhere in package `ping` (the file only has an older version of them, commented
out), so they are parameters of the model. -/
structure PingStats where
  calcAvgPing : Slice Nat → Nat
  calcStdDevPing : Slice Nat → Nat

namespace structs

/-- Modelled from the spec: `structs.Max` (package `utils/structs`, not part of the sources at
hand) is the larger of its two arguments, the "running maximum" of §4.4. -/
def Max (a b : Nat) : Nat := if a < b then b else a

/-- Modelled from the spec: `structs.Map` (package `utils/structs`, not part of the sources at
hand) applies a function to each element of an ordered sequence, keeping the order and giving one
result per element (§4.5). -/
def Map {α β : Type} (xs : List α) (f : α → β) : List β := xs.map f

end structs

/-- The function `initFailedPing`. -/
def initFailedPing (obj : Ping) : Ping :=
  { obj with
    RTT := 0
    Request := 0
    PacketLoss := Float64.fin 100
    Jitter := 0
    RTTList := Slice.nil
    RequestList := Slice.nil
    StatusCodes := Slice.nil }

/-- The function `updatePingMetrics`. -/
def updatePingMetrics (obj : Ping) (rtt req : Nat) : Ping :=
  { obj with
    MaxRTT := structs.Max obj.MaxRTT rtt
    MaxRequest := structs.Max obj.MaxRequest req }

/-- The function `calculateFinalMetrics`. -/
def calculateFinalMetrics (S : PingStats) (obj : Ping) (rtts reqs : Slice Nat) (codes : Slice Int)
    (failed total : Nat) : Ping :=
  let obj1 : Ping :=
    { obj with
      PacketLoss :=
        Float64.mul (Float64.div (Float64.ofNat failed) (Float64.ofNat total)) (Float64.fin 100)
      StatusCodes := codes }
  let obj2 : Ping :=
    if 0 < rtts.len then
      let o : Ping := { obj1 with RTT := S.calcAvgPing rtts, Jitter := S.calcStdDevPing rtts }
      { o with RTTSD := o.Jitter, RTTList := rtts }
    else obj1
  if 0 < reqs.len then
    { obj2 with
      Request := S.calcAvgPing reqs
      RequestSD := S.calcStdDevPing reqs
      RequestList := reqs }
  else obj2

/-- The local variables of `ping` that live across loop iterations, together with the result
object the loop updates. -/
structure pingState where
  obj : Ping
  rttTimes : Slice Nat
  requestTimes : Slice Nat
  statusCodes : Slice Int
  failedAttempt : Nat
  deriving DecidableEq

/-- The loop `for i := 0; i < int(withAvg); i++` of `ping`, with `n` iterations left. The counter
`failedAttempt` is a `uint`; it is incremented at most `withAvg < 2^16` times and cannot wrap.
`cancel()` releases the context of the attempt that has just ended and has no other effect. The
result is `none` when an attempt panics. -/
def pingLoop {σ : Type} (W : World σ) (p : Vendor σ) (url : String) (timeout : Nat) :
    Nat → pingState → σ → Option (pingState × σ)
  | 0, st, s => some (st, s)
  | n + 1, st, s =>
    match performPing W (contextWithTimeout W timeout s) p url s with
    | none => none
    | some (r, s1) =>
      match r.err with
      | some _ => pingLoop W p url timeout n { st with failedAttempt := st.failedAttempt + 1 } s1
      | none =>
        pingLoop W p url timeout n
          { st with
            obj := updatePingMetrics st.obj r.fst r.snd
            rttTimes := st.rttTimes.append r.fst
            requestTimes := st.requestTimes.append r.snd
            statusCodes := st.statusCodes.append r.code } s1

/-- The function `ping`. `p` is `none` for a nil transport; `withAvg` is a `uint16`. The result is
the result object after the call and the world after the call, or `none` when the call panics. -/
def ping {σ : Type} (W : World σ) (S : PingStats) (obj : Ping) (p : Option (Vendor σ))
    (url : String) (withAvg : Nat) (timeout : Nat) (s : σ) : Option (Ping × σ) :=
  match p with
  | none => some (initFailedPing obj, s)
  | some v =>
    match pingLoop W v url timeout withAvg ⟨obj, Slice.nil, Slice.nil, Slice.nil, 0⟩ s with
    | none => none
    | some (st, s1) =>
      some (calculateFinalMetrics S st.obj st.rttTimes st.requestTimes st.statusCodes
        st.failedAttempt withAvg, s1)

/-! ## matrices.go and packetloss/matrix.go -/

/-- Modelled from the spec: `interfaces.SlaveRequestMatrixType` and its constants are declared in
package `interfaces`, not among the files embedded here. §3 of the specification describes an
enumerated identifier; the named constants are the ones `matrices.go` and `packetloss/matrix.go`
mention, taken to be pairwise different, and `other` stands for every further identifier a
request can carry. -/
inductive SlaveRequestMatrixType where
  | MatrixHTTPPing
  | MatrixRTTPing
  | MatrixUDPType
  | MatrixAverageSpeed
  | MatrixMaxSpeed
  | MatrixPerSecondSpeed
  | MatrixInboundGeoIP
  | MatrixOutboundGeoIP
  | MatrixScriptTest
  | MatrixPacketLoss
  | other (name : String)
  deriving DecidableEq, Repr

/-- Modelled from the spec: `interfaces.SlaveRequestMacroType` (package `interfaces`) identifies
the raw-probe job an extractor depends on; `MacroPing` is the one constant these files mention. -/
inductive SlaveRequestMacroType where
  | MacroPing
  | other (name : String)
  deriving DecidableEq, Repr

/-- Modelled from the spec: `interfaces.SlaveRequestMatrixEntry` (package `interfaces`), a metric
request: the metric type (the Go field `Type`) and the parameters the caller gave. -/
structure SlaveRequestMatrixEntry where
  Type_ : SlaveRequestMatrixType
  Params : String
  deriving DecidableEq, Repr

/-- Modelled from the spec: `interfaces.PacketLossDS` (package `interfaces`), the value carried by
the packet-loss extractor; `Extract` assigns it a `float64`. -/
structure PacketLossDS where
  Value : Float64
  deriving DecidableEq

/-- The struct `PacketLoss` of `packetloss/matrix.go`. -/
structure PacketLoss extends PacketLossDS
  deriving DecidableEq

/-- Modelled from the spec: `interfaces.SlaveRequestMacro` (package `interfaces`) is the interface
of the raw-probe job results. A value handed to an extractor is the nil interface, a `*ping.Ping`
(`none` for a nil pointer), or a value of another type. -/
inductive SlaveRequestMacro where
  | nil
  | ping (r : Option Ping)
  | other (typeName : String)
  deriving DecidableEq

/-- Modelled from the spec: `interfaces.SlaveRequestMatrix` (package `interfaces`) is the
interface of the extractors; a value is a pointer to one of the extractor structs. Only
`PacketLoss` is declared in the files embedded here; for the other types the value stands for the
freshly allocated zero struct `&T{}` that the factory returns. -/
inductive SlaveRequestMatrix where
  | HTTPPing
  | RTTPing
  | UDPType
  | AverageSpeed
  | MaxSpeed
  | PerSecondSpeed
  | InboundGeoIP
  | OutboundGeoIP
  | ScriptTest
  | Invalid
  | PacketLoss (m : PacketLoss)
  deriving DecidableEq

/-- The method `(*PacketLoss).Type`. -/
def PacketLoss.Type_ (_m : PacketLoss) : SlaveRequestMatrixType :=
  SlaveRequestMatrixType.MatrixPacketLoss

/-- The method `(*PacketLoss).MacroJob`. -/
def PacketLoss.MacroJob (_m : PacketLoss) : SlaveRequestMacroType :=
  SlaveRequestMacroType.MacroPing

/-- The method `(*PacketLoss).Extract`; `job` is its parameter `macro`. The result is the
extractor and the job result after the call, or `none` when the call panics (the job result is a
nil `*ping.Ping`, which passes the type assertion and is then dereferenced). -/
def PacketLoss.Extract (m : PacketLoss) (_entry : SlaveRequestMatrixEntry)
    (job : SlaveRequestMacro) : Option (PacketLoss × SlaveRequestMacro) :=
  match job with
  | SlaveRequestMacro.ping (some mac) => some ({ m with Value := mac.PacketLoss }, job)
  | SlaveRequestMacro.ping none => none
  | _ => some (m, job)

/-- The map `registeredList`: its nine entries, in source order. A Go map value of function type
can be nil, hence the `Option`. -/
def registeredList : List (SlaveRequestMatrixType × Option (Unit → SlaveRequestMatrix)) :=
  [ (SlaveRequestMatrixType.MatrixHTTPPing, some fun _ => SlaveRequestMatrix.HTTPPing),
    (SlaveRequestMatrixType.MatrixRTTPing, some fun _ => SlaveRequestMatrix.RTTPing),
    (SlaveRequestMatrixType.MatrixUDPType, some fun _ => SlaveRequestMatrix.UDPType),
    (SlaveRequestMatrixType.MatrixAverageSpeed, some fun _ => SlaveRequestMatrix.AverageSpeed),
    (SlaveRequestMatrixType.MatrixMaxSpeed, some fun _ => SlaveRequestMatrix.MaxSpeed),
    (SlaveRequestMatrixType.MatrixPerSecondSpeed, some fun _ => SlaveRequestMatrix.PerSecondSpeed),
    (SlaveRequestMatrixType.MatrixInboundGeoIP, some fun _ => SlaveRequestMatrix.InboundGeoIP),
    (SlaveRequestMatrixType.MatrixOutboundGeoIP, some fun _ => SlaveRequestMatrix.OutboundGeoIP),
    (SlaveRequestMatrixType.MatrixScriptTest, some fun _ => SlaveRequestMatrix.ScriptTest) ]

/-- The function `Find`. -/
def Find (matrixType : SlaveRequestMatrixType) : SlaveRequestMatrix :=
  match registeredList.lookup matrixType with
  | some (some newFn) => newFn ()
  | _ => SlaveRequestMatrix.Invalid

/-- The function `FindBatch`. -/
def FindBatch (macroTypes : List SlaveRequestMatrixType) : List SlaveRequestMatrix :=
  structs.Map macroTypes fun m => Find m

/-- The function `FindBatchFromEntry`. -/
def FindBatchFromEntry (macroTypes : List SlaveRequestMatrixEntry) : List SlaveRequestMatrix :=
  structs.Map macroTypes fun m => Find m.Type_

/-! ## Runs of the probe engine -/

/-- The attempts of a run: the results of `n` calls of `performPing` made one after the other
from world state `s`, each under a fresh context, and the world after the last call. The result is
`none` when one of the calls panics. -/
def attempts {σ : Type} (W : World σ) (p : Vendor σ) (url : String) (timeout : Nat) :
    Nat → σ → Option (List ProbeResult × σ)
  | 0, s => some ([], s)
  | n + 1, s =>
    match performPing W (contextWithTimeout W timeout s) p url s with
    | none => none
    | some (r, s1) =>
      match attempts W p url timeout n s1 with
      | none => none
      | some (rs, s2) => some (r :: rs, s2)

/-- The attempts that failed: the probe returned an error. -/
def failedOf (rs : List ProbeResult) : List ProbeResult := rs.filter fun r => r.err.isSome

/-- The attempts that succeeded: the probe returned no error. -/
def successesOf (rs : List ProbeResult) : List ProbeResult := rs.filter fun r => r.err.isNone

/-- What one iteration of the loop of `ping` does with the result of its attempt. -/
def pingStep (st : pingState) (r : ProbeResult) : pingState :=
  match r.err with
  | some _ => { st with failedAttempt := st.failedAttempt + 1 }
  | none =>
    { st with
      obj := updatePingMetrics st.obj r.fst r.snd
      rttTimes := st.rttTimes.append r.fst
      requestTimes := st.requestTimes.append r.snd
      statusCodes := st.statusCodes.append r.code }

/-- The attempts of a call of `ping`: none at all for a nil transport. -/
def runOf {σ : Type} (W : World σ) (p : Option (Vendor σ)) (url : String) (timeout : Nat)
    (n : Nat) (s : σ) : Option (List ProbeResult × σ) :=
  match p with
  | none => some ([], s)
  | some v => attempts W v url timeout n s

/-! ## A simulated environment, for concrete runs -/

/-- World state of the simulation: the outcomes of the dials still to come (`true`: the dial
succeeds) and the clock, in nanoseconds. -/
structure Sim where
  script : List Bool
  clock : Int
  deriving DecidableEq, Repr

/-- A transport whose dials follow the script; a successful dial takes 2 ms, a refused one 1 ms. -/
def simVendor : Vendor Sim where
  DialTCP := fun _ _ s =>
    match s.script with
    | true :: rest => (Except.ok 1, ⟨rest, s.clock + 2000000⟩)
    | false :: rest => (Except.error "refused", ⟨rest, s.clock + 1000000⟩)
    | [] => (Except.error "refused", ⟨[], s.clock + 1000000⟩)

/-- An environment in which every URL parses, writes succeed at once, the first byte arrives
after 5 ms, the answer to the second write after 3 ms, and the answer is a `200`; over TLS the
handshake ends 4 ms after the dial and the first byte arrives 5 ms later. -/
def simWorld : World Sim where
  now := fun s => s.clock
  urlParse := fun _ => some ⟨"/", "", "host"⟩
  payload := fun a b => a ++ b
  newRequest := fun _ => none
  roundTrip := fun dial _ s =>
    match dial s with
    | (Except.error e, s1) => ((⟨0, 0, 0, 0⟩, Except.error e), s1)
    | (Except.ok _, s1) =>
      ((⟨UnixMilli s1.clock, UnixMilli s1.clock + 4, UnixMilli s1.clock + 4,
          UnixMilli s1.clock + 9⟩, Except.ok ⟨200, some true⟩), ⟨s1.script, s1.clock + 9000000⟩)
  connWrite := fun _ _ s => (none, s)
  connSetDeadline := fun _ _ s => s
  connClose := fun _ s => s
  readerReadByte := fun _ s => ⟨s.script, s.clock + 5000000⟩
  readerDrain := fun _ s => s
  readerPeek := fun _ _ s => (none, ⟨s.script, s.clock + 3000000⟩)
  readerRead := fun _ n s => (⟨n, none⟩, s)
  httpReadResponse := fun _ _ s => (Except.ok ⟨200, none⟩, s)
  bodyClose := fun s => s

/-- Stand-ins for the statistics helpers in concrete runs: the integer mean, and 0. -/
def simStats : PingStats := ⟨fun l => l.toList.sum / l.len, fun _ => 0⟩

/-- The zero value of `Ping`, a freshly created result object. -/
def zeroPing : Ping := ⟨0, 0, Float64.fin 0, 0, 0, 0, 0, 0, Slice.nil, Slice.nil, Slice.nil⟩

/-- A result object left over from an earlier run with one sample of 7 ms and 9 ms. -/
def usedPing : Ping :=
  ⟨7, 9, Float64.fin 0, 0, 0, 0, 7, 9, Slice.mk [7], Slice.mk [9], Slice.mk [200]⟩

/-! ## The statistics helpers, from the specification -/

/-- Modelled from the spec: `calcAvgPing` is called by `ping.go`, but its definition is in a file
of package `ping` that is not among the files embedded here (`ping.go` only keeps an older version,
commented out). §4.4: the mean of the samples, truncated to the integer range of the result
fields; as in the commented-out version, 0 for no sample. -/
def calcAvgPing (values : Slice Nat) : Nat :=
  if values.len = 0 then 0 else uint16 ((values.toList.sum / values.len : Nat) : Int)

/-- Modelled from the spec: `calcStdDevPing` is called by `ping.go`, but its definition is in a
file of package `ping` that is not among the files embedded here (`ping.go` only keeps an older
version, commented out). §4.4: the sample standard deviation, with denominator `N - 1`, truncated
to the integer range of the result fields; at least two samples are required for a nonzero
value and a single sample yields 0 (the commented-out version also returns 0 for fewer than two
samples). -/
def calcStdDevPing (values : Slice Nat) : Nat :=
  if values.len < 2 then 0
  else
    let n : ℚ := values.len
    let mean : ℚ := (values.toList.sum : ℚ) / n
    let variance : ℚ := (values.toList.map fun v => ((v : ℚ) - mean) ^ 2).sum / (n - 1)
    uint16 ((Nat.sqrt ⌊variance⌋₊ : Nat) : Int)

/-- The statistics helpers as the specification describes them. -/
def specStats : PingStats := ⟨calcAvgPing, calcStdDevPing⟩

/-! ## The phases of a plaintext attempt -/

/-- A plaintext attempt that got as far as the peek after the second write: the connection, the
clock at the four instants the specification names (§4.2), and the world after the peek. -/
structure NetCatTimeline (σ : Type) where
  conn : Conn
  dialStart : Int
  firstByte : Int
  secondWrite : Int
  firstPeek : Int
  afterPeek : σ

/-- The timeline of the plaintext attempt `pingViaNetCat(ctx, p, url)` started in world `s`:
defined when the URL parses and the dial, both writes and the peek after the second write
succeed. -/
def netCatTimeline {σ : Type} (W : World σ) (ctx : Context) (p : Vendor σ) (url : String)
    (s : σ) : Option (NetCatTimeline σ) :=
  match W.urlParse url with
  | none => none
  | some purl =>
    let payload := W.payload (purl.EscapedPath ++ "?" ++ purl.QueryEncoded) purl.Hostname
    match p.DialTCP ctx url s with
    | (Except.error _, _) => none
    | (Except.ok conn, s1) =>
      match W.connWrite conn payload (W.connSetDeadline conn (W.now s1 + 6 * second) s1) with
      | (some _, _) => none
      | (none, s3) =>
        let s4 := W.readerReadByte conn s3
        let s5 := W.readerDrain conn s4
        match W.connWrite conn payload s5 with
        | (some _, _) => none
        | (none, s6) =>
          match W.readerPeek conn 1 s6 with
          | (some _, _) => none
          | (none, s7) => some ⟨conn, W.now s, W.now s4, W.now s5, W.now s7, s7⟩

/-- The connect RTT of a plaintext attempt (§4.2, step 4): from the start of the dial to the first
byte read, in milliseconds. -/
def NetCatTimeline.connectRTT {σ : Type} (t : NetCatTimeline σ) : Int :=
  Milliseconds (t.firstByte - t.dialStart)

/-- The request RTT of a plaintext attempt (§4.2, step 6): from the second write to the first
peeked byte, in milliseconds. -/
def NetCatTimeline.requestRTT {σ : Type} (t : NetCatTimeline σ) : Int :=
  Milliseconds (t.firstPeek - t.secondWrite)

/-- The simulated environment with a peer that answers with bytes that are not an HTTP
response. -/
def simWorldGarbled : World Sim :=
  { simWorld with httpReadResponse := fun _ _ s => (Except.error "malformed HTTP response", s) }

/-- The timeline of a plaintext attempt in the simulated environments, started at time 0 with a
dial that succeeds: first byte after 7 ms, second write at once, peek 3 ms later. -/
def simTimeline : NetCatTimeline Sim := ⟨1, 0, 7000000, 7000000, 10000000, ⟨[], 10000000⟩⟩

/-- The two samples of a plaintext attempt with timeline `t`, as 16 bit values: its request RTT,
and its connect RTT, or 0 when the status line could not be parsed. -/
def NetCatTimeline.samples {σ : Type} (W : World σ) (t : NetCatTimeline σ) : Nat × Nat :=
  (uint16 t.requestRTT,
    if (saferParseHTTPStatus W t.conn t.afterPeek).1.2.isNone then uint16 t.connectRTT else 0)

/-- The samples of the successful attempts of a plaintext run of `n` attempts started in world
`s`, in attempt order: an attempt is successful when it has a timeline, and its samples are
read off the timeline. `performPing` is only used to find the world the next attempt starts in. -/
def plaintextSamples {σ : Type} (W : World σ) (p : Vendor σ) (url : String) (timeout : Nat) :
    Nat → σ → List (Nat × Nat)
  | 0, _ => []
  | n + 1, s =>
    match performPing W (contextWithTimeout W timeout s) p url s with
    | none => []
    | some (_, s1) =>
      match netCatTimeline W (contextWithTimeout W timeout s) p url s with
      | some t => t.samples W :: plaintextSamples W p url timeout n s1
      | none => plaintextSamples W p url timeout n s1

/-- The simulated environment with the `url.Parse` of Go for the URL `http://[::1`: the host has
no closing bracket and the parse fails. -/
def simWorldNoParse : World Sim :=
  { simWorld with urlParse := fun u => if u = "http://[::1" then none else simWorld.urlParse u }

/-! ## Lemmas on the loop -/

theorem pingLoop_eq_foldl {σ : Type} (W : World σ) (p : Vendor σ) (url : String) (timeout : Nat)
    (n : Nat) (st : pingState) (s : σ) :
    pingLoop W p url timeout n st s =
      (attempts W p url timeout n s).map fun x => (x.1.foldl pingStep st, x.2) := by
  induction n generalizing st s with
  | zero => simp [pingLoop, attempts]
  | succ n ih =>
    simp only [pingLoop, attempts]
    cases hp : performPing W (contextWithTimeout W timeout s) p url s with
    | none => simp
    | some x =>
      obtain ⟨r, s1⟩ := x
      have hstep : ∀ st : pingState,
          pingLoop W p url timeout n (pingStep st r) s1 =
            (attempts W p url timeout n s1).map fun x => (x.1.foldl pingStep (pingStep st r), x.2) :=
        fun st => ih (pingStep st r) s1
      cases he : r.err with
      | none =>
        have h2 := hstep st
        simp only [pingStep, he] at h2
        simp only [h2]
        cases attempts W p url timeout n s1 <;> simp [pingStep, he]
      | some e =>
        have h2 := hstep st
        simp only [pingStep, he] at h2
        simp only [h2]
        cases attempts W p url timeout n s1 <;> simp [pingStep, he]

theorem attempts_length {σ : Type} (W : World σ) (p : Vendor σ) (url : String) (timeout : Nat)
    (n : Nat) (s : σ) (rs : List ProbeResult) (s2 : σ)
    (h : attempts W p url timeout n s = some (rs, s2)) : rs.length = n := by
  induction n generalizing s rs s2 with
  | zero =>
    simp only [attempts, Option.some.injEq, Prod.mk.injEq] at h
    rw [← h.1]; rfl
  | succ n ih =>
    simp only [attempts] at h
    cases hp : performPing W (contextWithTimeout W timeout s) p url s with
    | none => simp [hp] at h
    | some x =>
      obtain ⟨r, s1⟩ := x
      simp only [hp] at h
      cases ha : attempts W p url timeout n s1 with
      | none => simp [ha] at h
      | some y =>
        obtain ⟨rs1, s3⟩ := y
        simp only [ha, Option.some.injEq, Prod.mk.injEq] at h
        rw [← h.1, List.length_cons, ih s1 rs1 s3 ha]

theorem failedOf_add_successesOf (rs : List ProbeResult) :
    (failedOf rs).length + (successesOf rs).length = rs.length := by
  induction rs with
  | nil => rfl
  | cons r rs ih =>
    cases he : r.err <;> simp [failedOf, successesOf, List.filter_cons, he] at ih ⊢ <;> omega

theorem failedOf_length_le (rs : List ProbeResult) : (failedOf rs).length ≤ rs.length :=
  List.length_filter_le _ _

theorem foldl_failedAttempt (rs : List ProbeResult) (st : pingState) :
    (rs.foldl pingStep st).failedAttempt = st.failedAttempt + (failedOf rs).length := by
  induction rs generalizing st with
  | nil => simp [failedOf]
  | cons r rs ih =>
    rw [List.foldl_cons, ih]
    cases he : r.err with
    | none => simp [pingStep, failedOf, List.filter_cons, he]
    | some e => simp [pingStep, failedOf, List.filter_cons, he]; omega

theorem foldl_obj (rs : List ProbeResult) (st : pingState) :
    (rs.foldl pingStep st).obj =
      { st.obj with
        MaxRTT := (successesOf rs).foldl (fun m r => structs.Max m r.fst) st.obj.MaxRTT
        MaxRequest := (successesOf rs).foldl (fun m r => structs.Max m r.snd) st.obj.MaxRequest } := by
  induction rs generalizing st with
  | nil => simp [successesOf]
  | cons r rs ih =>
    rw [List.foldl_cons, ih]
    cases he : r.err <;> simp [pingStep, successesOf, List.filter_cons, he, updatePingMetrics]

theorem foldl_rttTimes (rs : List ProbeResult) (st : pingState) :
    (rs.foldl pingStep st).rttTimes =
      if successesOf rs = [] then st.rttTimes
      else Slice.mk (st.rttTimes.toList ++ (successesOf rs).map fun r => r.fst) := by
  induction rs generalizing st with
  | nil => simp [successesOf]
  | cons r rs ih =>
    rw [List.foldl_cons, ih]
    cases he : r.err with
    | some e => simp [pingStep, successesOf, List.filter_cons, he]
    | none =>
      by_cases hs : successesOf rs = [] <;>
        simp [pingStep, successesOf, List.filter_cons, he, Slice.append, Slice.toList] at hs ⊢

theorem foldl_requestTimes (rs : List ProbeResult) (st : pingState) :
    (rs.foldl pingStep st).requestTimes =
      if successesOf rs = [] then st.requestTimes
      else Slice.mk (st.requestTimes.toList ++ (successesOf rs).map fun r => r.snd) := by
  induction rs generalizing st with
  | nil => simp [successesOf]
  | cons r rs ih =>
    rw [List.foldl_cons, ih]
    cases he : r.err with
    | some e => simp [pingStep, successesOf, List.filter_cons, he]
    | none =>
      by_cases hs : successesOf rs = [] <;>
        simp [pingStep, successesOf, List.filter_cons, he, Slice.append, Slice.toList] at hs ⊢

theorem foldl_statusCodes (rs : List ProbeResult) (st : pingState) :
    (rs.foldl pingStep st).statusCodes =
      if successesOf rs = [] then st.statusCodes
      else Slice.mk (st.statusCodes.toList ++ (successesOf rs).map fun r => r.code) := by
  induction rs generalizing st with
  | nil => simp [successesOf]
  | cons r rs ih =>
    rw [List.foldl_cons, ih]
    cases he : r.err with
    | some e => simp [pingStep, successesOf, List.filter_cons, he]
    | none =>
      by_cases hs : successesOf rs = [] <;>
        simp [pingStep, successesOf, List.filter_cons, he, Slice.append, Slice.toList] at hs ⊢

/-- What `ping` returns over a non-nil transport, in terms of the attempts of the run. -/
theorem ping_eq {σ : Type} (W : World σ) (S : PingStats) (obj : Ping) (p : Vendor σ)
    (url : String) (withAvg timeout : Nat) (s : σ) :
    ping W S obj (some p) url withAvg timeout s =
      (attempts W p url timeout withAvg s).map fun x =>
        (calculateFinalMetrics S
          { obj with
            MaxRTT := (successesOf x.1).foldl (fun m r => structs.Max m r.fst) obj.MaxRTT
            MaxRequest := (successesOf x.1).foldl (fun m r => structs.Max m r.snd) obj.MaxRequest }
          (if successesOf x.1 = [] then Slice.nil
            else Slice.mk ((successesOf x.1).map fun r => r.fst))
          (if successesOf x.1 = [] then Slice.nil
            else Slice.mk ((successesOf x.1).map fun r => r.snd))
          (if successesOf x.1 = [] then Slice.nil
            else Slice.mk ((successesOf x.1).map fun r => r.code))
          (failedOf x.1).length withAvg, x.2) := by
  simp only [ping, pingLoop_eq_foldl]
  cases attempts W p url timeout withAvg s with
  | none => rfl
  | some x =>
    simp [foldl_obj, foldl_rttTimes, foldl_requestTimes, foldl_statusCodes, foldl_failedAttempt,
      Slice.toList]

/-! ## Lemmas on binary64 rounding -/

namespace Float64

theorem roundHalfEven_intCast (k : ℤ) : roundHalfEven (k : ℚ) = k := by
  simp [roundHalfEven]

theorem roundHalfEven_sub_le (m : ℚ) : |(roundHalfEven m : ℚ) - m| ≤ 1 / 2 := by
  have h1 := Int.floor_le m
  have h2 := Int.lt_floor_add_one m
  unfold roundHalfEven
  simp only
  rw [abs_le]
  split_ifs with h3 h4 h5
  · constructor <;> linarith
  · push_cast; constructor <;> linarith
  · constructor <;> linarith
  · push_cast; constructor <;> linarith

/-- In the normal range, `round` is the nearest multiple of the unit in the last place. -/
theorem round_of_mem_binade (x : ℚ) (e : ℤ) (he : -1022 ≤ e) (he2 : e ≤ 1022)
    (h1 : (2 : ℚ) ^ e ≤ x) (h2 : x < (2 : ℚ) ^ (e + 1)) :
    round x = fin (roundHalfEven (x / 2 ^ (e - 52)) * 2 ^ (e - 52)) := by
  have hx : 0 < x := lt_of_lt_of_le (by positivity) h1
  have hlog : Int.log 2 x = e := by
    apply le_antisymm
    · have := (Int.lt_zpow_iff_log_lt (b := 2) (by norm_num) hx (x := e + 1)).1 (by exact_mod_cast h2)
      omega
    · exact (Int.zpow_le_iff_le_log (b := 2) (by norm_num) hx).1 (by exact_mod_cast h1)
  have hulp : (0 : ℚ) < 2 ^ (e - 52) := by positivity
  have herr := roundHalfEven_sub_le (x / 2 ^ (e - 52))
  have hr : (roundHalfEven (x / 2 ^ (e - 52)) : ℚ) * 2 ^ (e - 52) < 2 ^ (1024 : ℤ) := by
    rw [abs_le] at herr
    have h3 : (roundHalfEven (x / 2 ^ (e - 52)) : ℚ) ≤ x / 2 ^ (e - 52) + 1 / 2 := by linarith
    have h4 : (roundHalfEven (x / 2 ^ (e - 52)) : ℚ) * 2 ^ (e - 52) ≤ x + 2 ^ (e - 52) / 2 := by
      calc (roundHalfEven (x / 2 ^ (e - 52)) : ℚ) * 2 ^ (e - 52)
          ≤ (x / 2 ^ (e - 52) + 1 / 2) * 2 ^ (e - 52) := by
            exact mul_le_mul_of_nonneg_right h3 hulp.le
        _ = x + 2 ^ (e - 52) / 2 := by field_simp; ring
    have h5 : (2 : ℚ) ^ (e - 52) ≤ 2 ^ (e + 1) := zpow_le_zpow_right₀ (by norm_num) (by omega)
    have h6 : (2 : ℚ) ^ (e + 1) ≤ 2 ^ (1023 : ℤ) := zpow_le_zpow_right₀ (by norm_num) (by omega)
    have h7 : (2 : ℚ) ^ (1024 : ℤ) = 2 * 2 ^ (1023 : ℤ) := by
      rw [show (1024 : ℤ) = 1023 + 1 by norm_num, zpow_add_one₀ (by norm_num)]; ring
    have h8 : (0:ℚ) < 2 ^ (e + 1) := by positivity
    linarith
  unfold round
  simp only [abs_of_pos hx, hlog, max_eq_left he, hx.ne', if_false, not_le.2 hr, not_lt.2 hx.le]

/-- Relative error of one rounding in the normal range: at most `2^-53`. -/
theorem round_rel_err (x : ℚ) (h1 : (2 : ℚ) ^ (-1022 : ℤ) ≤ x) (h2 : x < (2 : ℚ) ^ (1023 : ℤ)) :
    ∃ r : ℚ, round x = fin r ∧ |r - x| ≤ x * 2 ^ (-53 : ℤ) := by
  have hx : 0 < x := lt_of_lt_of_le (by positivity) h1
  have hb : 1 < 2 := by norm_num
  have hlo : ((2 : ℕ) : ℚ) ^ Int.log 2 x ≤ x := Int.zpow_log_le_self hb hx
  have hhi : x < ((2 : ℕ) : ℚ) ^ (Int.log 2 x + 1) := Int.lt_zpow_succ_log_self hb x
  have he : -1022 ≤ Int.log 2 x :=
    (Int.zpow_le_iff_le_log (b := 2) hb hx).1 (by exact_mod_cast h1)
  have he2 : Int.log 2 x < 1023 :=
    (Int.lt_zpow_iff_log_lt (b := 2) hb hx).1 (by exact_mod_cast h2)
  rw [Nat.cast_ofNat] at hlo hhi
  generalize Int.log 2 x = e at hlo hhi he he2
  refine ⟨_, round_of_mem_binade x e he (by omega) hlo hhi, ?_⟩
  have hulp : (0 : ℚ) < 2 ^ (e - 52) := by positivity
  have herr := roundHalfEven_sub_le (x / 2 ^ (e - 52))
  have h3 : (roundHalfEven (x / 2 ^ (e - 52)) : ℚ) * 2 ^ (e - 52) - x =
      ((roundHalfEven (x / 2 ^ (e - 52)) : ℚ) - x / 2 ^ (e - 52)) * 2 ^ (e - 52) := by
    field_simp
  rw [h3, abs_mul, abs_of_pos hulp]
  have h4 : (2 : ℚ) ^ (e - 52) = 2 ^ e * 2 ^ (-52 : ℤ) := by
    rw [← zpow_add₀ (by norm_num)]; congr 1
  have h5 : (2 : ℚ) ^ (-53 : ℤ) = 2 ^ (-52 : ℤ) / 2 := by
    rw [show (-53 : ℤ) = -52 - 1 by norm_num, zpow_sub_one₀ (by norm_num)]; rfl
  have h6 : (0 : ℚ) < 2 ^ (-52 : ℤ) := by positivity
  calc |(roundHalfEven (x / 2 ^ (e - 52)) : ℚ) - x / 2 ^ (e - 52)| * 2 ^ (e - 52)
      ≤ 1 / 2 * 2 ^ (e - 52) := mul_le_mul_of_nonneg_right herr hulp.le
    _ = 2 ^ e * 2 ^ (-53 : ℤ) := by rw [h4, h5]; ring
    _ ≤ x * 2 ^ (-53 : ℤ) := mul_le_mul_of_nonneg_right hlo (by positivity)

/-- Integers below `2^53` are binary64 values: the conversion is exact. -/
theorem ofNat_exact (n : ℕ) (h : n < 2 ^ 53) : ofNat n = fin n := by
  rcases Nat.eq_zero_or_pos n with h0 | hpos
  · subst h0; simp [ofNat, round]
  have hb : 1 < 2 := by norm_num
  have hlog : Int.log 2 (n : ℚ) = (Nat.log 2 n : ℤ) := Int.log_natCast 2 n
  have hle : Nat.log 2 n < 53 := Nat.log_lt_of_lt_pow hpos.ne' h
  have hlo : (2 : ℚ) ^ (Nat.log 2 n : ℤ) ≤ n := by
    have := Nat.pow_log_le_self 2 hpos.ne'
    rw [zpow_natCast]; exact_mod_cast this
  have hhi : (n : ℚ) < 2 ^ ((Nat.log 2 n : ℤ) + 1) := by
    have := Nat.lt_pow_succ_log_self hb n
    rw [show ((Nat.log 2 n : ℤ) + 1) = ((Nat.log 2 n + 1 : ℕ) : ℤ) by push_cast; rfl, zpow_natCast]
    exact_mod_cast this
  unfold ofNat
  rw [round_of_mem_binade (n : ℚ) (Nat.log 2 n : ℤ) (by omega) (by omega) hlo hhi]
  congr 1
  obtain ⟨k, hk⟩ : ∃ k : ℕ, 52 = Nat.log 2 n + k := ⟨52 - Nat.log 2 n, by omega⟩
  have hpow : (2 : ℚ) ^ ((Nat.log 2 n : ℤ) - 52) = ((2 : ℚ) ^ k)⁻¹ := by
    rw [← zpow_natCast, ← zpow_neg]; congr 1; omega
  rw [hpow]
  have hm : (n : ℚ) / ((2 : ℚ) ^ k)⁻¹ = (((n * 2 ^ k : ℕ) : ℤ) : ℚ) := by
    rw [div_inv_eq_mul]; push_cast; ring
  rw [hm, roundHalfEven_intCast]
  push_cast
  field_simp

/-- The packet loss expression `float64(failed) / float64(total) * 100` for
`failed ≤ total`, `1 ≤ total < 2^16`. -/
theorem packetLoss_value (f N : ℕ) (hN : 1 ≤ N) (hN2 : N < 65536) (hf : f ≤ N) :
    ∃ q : ℚ, mul (div (ofNat f) (ofNat N)) (fin 100) = fin q ∧ 0 ≤ q ∧ q ≤ 100 ∧
      (q = 0 ↔ f = 0) ∧ (q = 100 ↔ f = N) ∧
      |q - 100 * (f : ℚ) / N| ≤ 100 * (f : ℚ) / N * 2 ^ (-51 : ℤ) := by
  have hNq : (0 : ℚ) < N := by exact_mod_cast hN
  have h100 : round 100 = fin 100 := by
    have := ofNat_exact 100 (by norm_num)
    simpa [ofNat] using this
  have h1 : round 1 = fin 1 := by
    have := ofNat_exact 1 (by norm_num)
    simpa [ofNat] using this
  rw [ofNat_exact f (by omega), ofNat_exact N (by omega)]
  simp only [div, hNq.ne', if_false]
  rcases Nat.eq_zero_or_pos f with h0 | hpos
  · subst h0
    refine ⟨0, ?_, le_refl _, by norm_num, by simp, ?_, by simp⟩
    · simp [round, mul]
    · constructor
      · intro h; norm_num at h
      · intro h; omega
  rcases Nat.eq_or_lt_of_le hf with heq | hlt
  · subst heq
    refine ⟨100, ?_, by norm_num, le_refl _, ?_, by simp, ?_⟩
    · rw [div_self hNq.ne', h1]; simp only [mul, one_mul, h100]
    · constructor
      · intro h; norm_num at h
      · intro h; omega
    · rw [mul_div_assoc, div_self hNq.ne']; norm_num
  -- the general case `0 < f < N`
  have hfq : (0 : ℚ) < f := by exact_mod_cast hpos
  set x : ℚ := (f : ℚ) / N with hx
  have hxpos : 0 < x := div_pos hfq hNq
  have hxlo : (1 : ℚ) / 65536 ≤ x := by
    rw [hx, div_le_div_iff₀ (by norm_num) hNq]
    have h1 : (N : ℚ) ≤ 65536 := by exact_mod_cast hN2.le
    have h2 : (1 : ℚ) ≤ f := by exact_mod_cast hpos
    nlinarith
  have hxhi : x ≤ 1 - 1 / 65536 := by
    rw [hx, div_le_iff₀ hNq]
    have h1 : (N : ℚ) ≤ 65536 := by exact_mod_cast hN2.le
    have h2 : (f : ℚ) + 1 ≤ N := by exact_mod_cast hlt
    nlinarith
  have hu : (2 : ℚ) ^ (-53 : ℤ) = 1 / 9007199254740992 := by norm_num
  have hu51 : (2 : ℚ) ^ (-51 : ℤ) = 1 / 2251799813685248 := by norm_num
  have hmin : (2 : ℚ) ^ (-1022 : ℤ) ≤ 1 / 65536 := by
    rw [show (1 : ℚ) / 65536 = 2 ^ (-16 : ℤ) by norm_num]
    exact zpow_le_zpow_right₀ (by norm_num) (by norm_num)
  have hmax : (128 : ℚ) ≤ 2 ^ (1023 : ℤ) := by
    rw [show (128 : ℚ) = 2 ^ (7 : ℤ) by norm_num]
    exact zpow_le_zpow_right₀ (by norm_num) (by norm_num)
  obtain ⟨r, hr, hrerr⟩ := round_rel_err x (hmin.trans hxlo)
    (lt_of_lt_of_le (by linarith) hmax)
  rw [hu, abs_le] at hrerr
  have hrlo : x * (1 - 1 / 9007199254740992) ≤ r := by linarith
  have hrhi : r ≤ x * (1 + 1 / 9007199254740992) := by linarith
  have hrpos : 0 < r := lt_of_lt_of_le (by positivity) hrlo
  have hr1 : r ≤ (1 - 1 / 65536) * (1 + 1 / 9007199254740992) :=
    hrhi.trans (mul_le_mul_of_nonneg_right hxhi (by norm_num))
  have hr0 : (1 : ℚ) / 65536 * (1 - 1 / 9007199254740992) ≤ r :=
    (mul_le_mul_of_nonneg_right hxlo (by norm_num)).trans hrlo
  have hy0 : (1 : ℚ) / 65536 ≤ r * 100 := by norm_num at hr0 ⊢; linarith
  have hy1 : r * 100 < 128 := by norm_num at hr1 ⊢; linarith
  obtain ⟨q, hq, hqerr⟩ := round_rel_err (r * 100) (hmin.trans hy0) (lt_of_lt_of_le hy1 hmax)
  rw [hu, abs_le] at hqerr
  have hqlo : r * 100 * (1 - 1 / 9007199254740992) ≤ q := by linarith
  have hqhi : q ≤ r * 100 * (1 + 1 / 9007199254740992) := by linarith
  have hqpos : 0 < q := lt_of_lt_of_le (by positivity) hqlo
  have hq100 : q < 100 := by
    have : r * 100 * (1 + 1 / 9007199254740992) ≤
        (1 - 1 / 65536) * (1 + 1 / 9007199254740992) * 100 * (1 + 1 / 9007199254740992) := by
      apply mul_le_mul_of_nonneg_right _ (by norm_num)
      exact mul_le_mul_of_nonneg_right hr1 (by norm_num)
    have h2 : (1 - 1 / 65536 : ℚ) * (1 + 1 / 9007199254740992) * 100 *
        (1 + 1 / 9007199254740992) < 100 := by norm_num
    linarith
  refine ⟨q, ?_, hqpos.le, hq100.le, ?_, ?_, ?_⟩
  · rw [hr]; simp only [mul, hq]
  · constructor
    · intro h; linarith
    · intro h; omega
  · constructor
    · intro h; linarith
    · intro h; omega
  · rw [mul_div_assoc, ← hx, hu51, abs_le]
    constructor <;> nlinarith

end Float64

/-! ## Lemmas on `calculateFinalMetrics` -/

theorem calculateFinalMetrics_PacketLoss (S : PingStats) (obj : Ping) (rtts reqs : Slice Nat)
    (codes : Slice Int) (failed total : Nat) :
    (calculateFinalMetrics S obj rtts reqs codes failed total).PacketLoss =
      Float64.mul (Float64.div (Float64.ofNat failed) (Float64.ofNat total)) (Float64.fin 100) := by
  unfold calculateFinalMetrics
  split_ifs <;> rfl

theorem calculateFinalMetrics_StatusCodes (S : PingStats) (obj : Ping) (rtts reqs : Slice Nat)
    (codes : Slice Int) (failed total : Nat) :
    (calculateFinalMetrics S obj rtts reqs codes failed total).StatusCodes = codes := by
  unfold calculateFinalMetrics
  split_ifs <;> rfl

theorem calculateFinalMetrics_RTTList (S : PingStats) (obj : Ping) (rtts reqs : Slice Nat)
    (codes : Slice Int) (failed total : Nat) :
    (calculateFinalMetrics S obj rtts reqs codes failed total).RTTList =
      if 0 < rtts.len then rtts else obj.RTTList := by
  unfold calculateFinalMetrics
  split_ifs <;> rfl

theorem calculateFinalMetrics_RequestList (S : PingStats) (obj : Ping) (rtts reqs : Slice Nat)
    (codes : Slice Int) (failed total : Nat) :
    (calculateFinalMetrics S obj rtts reqs codes failed total).RequestList =
      if 0 < reqs.len then reqs else obj.RequestList := by
  unfold calculateFinalMetrics
  split_ifs <;> rfl

/-- With no sample at all, `calculateFinalMetrics` only writes `PacketLoss` and `StatusCodes`. -/
theorem calculateFinalMetrics_nil (S : PingStats) (obj : Ping) (codes : Slice Int)
    (failed total : Nat) :
    calculateFinalMetrics S obj Slice.nil Slice.nil codes failed total =
      { obj with
        PacketLoss :=
          Float64.mul (Float64.div (Float64.ofNat failed) (Float64.ofNat total)) (Float64.fin 100)
        StatusCodes := codes } := by
  simp [calculateFinalMetrics, Slice.len, Slice.toList]

theorem successesOf_map_len (rs : List ProbeResult) (h : successesOf rs ≠ [])
    {α : Type} (f : ProbeResult → α) : 0 < (Slice.mk ((successesOf rs).map f)).len := by
  simp only [Slice.len, Slice.toList, List.length_map]
  exact List.length_pos.2 h

/-- A run over a transport returns unless an attempt panics, and the only panic of an attempt is
the nil URL of the plaintext probe. -/
theorem attempts_isSome {σ : Type} (W : World σ) (p : Vendor σ) (url : String) (timeout : Nat)
    (hurl : HasPrefix url "https:" = true ∨ (W.urlParse url).isSome = true) (n : Nat) (s : σ) :
    ∃ rs s2, attempts W p url timeout n s = some (rs, s2) := by
  induction n generalizing s with
  | zero => exact ⟨[], s, rfl⟩
  | succ n ih =>
    have hp : ∃ r s1, performPing W (contextWithTimeout W timeout s) p url s = some (r, s1) := by
      unfold performPing
      by_cases hh : HasPrefix url "https:" = true
      · rw [if_pos hh]; exact ⟨_, _, rfl⟩
      · rw [if_neg hh]
        have hparse : (W.urlParse url).isSome = true := hurl.resolve_left hh
        obtain ⟨u, hu⟩ := Option.isSome_iff_exists.1 hparse
        unfold pingViaNetCat
        simp only [hu]
        split
        · exact ⟨_, _, rfl⟩
        · split
          · exact ⟨_, _, rfl⟩
          · split
            · exact ⟨_, _, rfl⟩
            · split
              · exact ⟨_, _, rfl⟩
              · split <;> exact ⟨_, _, rfl⟩
    obtain ⟨r, s1, hr⟩ := hp
    obtain ⟨rs, s2, hrs⟩ := ih s1
    exact ⟨r :: rs, s2, by simp [attempts, hr, hrs]⟩

theorem calculateFinalMetrics_Jitter (S : PingStats) (obj : Ping) (rtts reqs : Slice Nat)
    (codes : Slice Int) (failed total : Nat) (h : 0 < rtts.len) :
    (calculateFinalMetrics S obj rtts reqs codes failed total).Jitter = S.calcStdDevPing rtts ∧
    (calculateFinalMetrics S obj rtts reqs codes failed total).RTTSD = S.calcStdDevPing rtts := by
  unfold calculateFinalMetrics
  simp only [if_pos h]
  split_ifs <;> exact ⟨rfl, rfl⟩

theorem calculateFinalMetrics_RequestSD (S : PingStats) (obj : Ping) (rtts reqs : Slice Nat)
    (codes : Slice Int) (failed total : Nat) (h : 0 < reqs.len) :
    (calculateFinalMetrics S obj rtts reqs codes failed total).RequestSD =
      S.calcStdDevPing reqs := by
  unfold calculateFinalMetrics
  simp only [if_pos h]

theorem calculateFinalMetrics_Max (S : PingStats) (obj : Ping) (rtts reqs : Slice Nat)
    (codes : Slice Int) (failed total : Nat) :
    (calculateFinalMetrics S obj rtts reqs codes failed total).MaxRTT = obj.MaxRTT ∧
    (calculateFinalMetrics S obj rtts reqs codes failed total).MaxRequest = obj.MaxRequest := by
  unfold calculateFinalMetrics
  split_ifs <;> exact ⟨rfl, rfl⟩

theorem calculateFinalMetrics_RTT (S : PingStats) (obj : Ping) (rtts reqs : Slice Nat)
    (codes : Slice Int) (failed total : Nat) (h : 0 < rtts.len) :
    (calculateFinalMetrics S obj rtts reqs codes failed total).RTT = S.calcAvgPing rtts := by
  unfold calculateFinalMetrics
  simp only [if_pos h]
  split_ifs <;> rfl

theorem calculateFinalMetrics_Request (S : PingStats) (obj : Ping) (rtts reqs : Slice Nat)
    (codes : Slice Int) (failed total : Nat) (h : 0 < reqs.len) :
    (calculateFinalMetrics S obj rtts reqs codes failed total).Request =
      S.calcAvgPing reqs := by
  unfold calculateFinalMetrics
  simp only [if_pos h]

/-- One iteration of the loop of `ping` whose attempt returned without error. -/
theorem pingLoop_succ_of_success {σ : Type} (W : World σ) (p : Vendor σ) (url : String)
    (timeout n : Nat) (st : pingState) (s s1 : σ) (r : ProbeResult)
    (hp : performPing W (contextWithTimeout W timeout s) p url s = some (r, s1))
    (he : r.err = none) :
    pingLoop W p url timeout (n + 1) st s =
      pingLoop W p url timeout n
        { st with
          obj := updatePingMetrics st.obj r.fst r.snd
          rttTimes := st.rttTimes.append r.fst
          requestTimes := st.requestTimes.append r.snd
          statusCodes := st.statusCodes.append r.code } s1 := by
  simp only [pingLoop, hp, he]

theorem foldl_Max_spec (l : List Nat) (init : Nat) :
    init ≤ l.foldl structs.Max init ∧ (∀ x ∈ l, x ≤ l.foldl structs.Max init) ∧
      (l.foldl structs.Max init = init ∨ l.foldl structs.Max init ∈ l) := by
  induction l generalizing init with
  | nil => simp
  | cons a l ih =>
    obtain ⟨h1, h2, h3⟩ := ih (structs.Max init a)
    have hmax : init ≤ structs.Max init a ∧ a ≤ structs.Max init a ∧
        (structs.Max init a = init ∨ structs.Max init a = a) := by
      unfold structs.Max
      split_ifs with h
      · exact ⟨h.le, le_refl _, Or.inr rfl⟩
      · exact ⟨le_refl _, not_lt.1 h, Or.inl rfl⟩
    rw [List.foldl_cons]
    refine ⟨hmax.1.trans h1, ?_, ?_⟩
    · intro x hx
      rcases List.mem_cons.1 hx with rfl | hx
      · exact hmax.2.1.trans h1
      · exact h2 x hx
    · rcases h3 with h3 | h3
      · rcases hmax.2.2 with h4 | h4
        · exact Or.inl (h3.trans h4)
        · exact Or.inr (by rw [h3, h4]; exact List.mem_cons_self _ _)
      · exact Or.inr (List.mem_cons_of_mem _ h3)

/-- The running maximum from 0 over a non-empty list is the maximum of the list. -/
theorem foldl_Max_zero (l : List Nat) (hl : l ≠ []) :
    l.foldl structs.Max 0 ∈ l ∧ ∀ x ∈ l, x ≤ l.foldl structs.Max 0 := by
  obtain ⟨-, h2, h3⟩ := foldl_Max_spec l 0
  refine ⟨?_, h2⟩
  rcases h3 with h3 | h3
  · obtain ⟨a, ha⟩ := List.exists_mem_of_ne_nil l hl
    have h0 : a = 0 := Nat.le_zero.1 (h3 ▸ h2 a ha)
    rw [h3, ← h0]; exact ha
  · exact h3

/-- What `pingViaNetCat` returns once the attempt has a timeline: only the parse of the status
line is left. -/
theorem pingViaNetCat_of_timeline {σ : Type} (W : World σ) (ctx : Context) (p : Vendor σ)
    (url : String) (s : σ) (t : NetCatTimeline σ)
    (ht : netCatTimeline W ctx p url s = some t) :
    pingViaNetCat W ctx p url s =
      match saferParseHTTPStatus W t.conn t.afterPeek with
      | ((_, some _), s8) => some (⟨uint16 t.requestRTT, 0, 0, none⟩, W.connClose t.conn s8)
      | ((statusCode, none), s8) =>
        some (⟨uint16 t.requestRTT, uint16 t.connectRTT, statusCode, none⟩,
          W.connClose t.conn s8) := by
  unfold netCatTimeline at ht
  unfold pingViaNetCat
  cases hu : W.urlParse url with
  | none => simp [hu] at ht
  | some purl =>
    simp only [hu] at ht ⊢
    split at ht
    · cases ht
    · split at ht
      · cases ht
      · split at ht
        · cases ht
        · split at ht
          · cases ht
          · cases ht
            rfl

/-- A plaintext attempt that returns without error has a timeline. -/
theorem netCatTimeline_of_success {σ : Type} (W : World σ) (ctx : Context) (p : Vendor σ)
    (url : String) (s s1 : σ) (r : ProbeResult)
    (hp : pingViaNetCat W ctx p url s = some (r, s1)) (he : r.err = none) :
    ∃ t, netCatTimeline W ctx p url s = some t := by
  unfold pingViaNetCat at hp
  unfold netCatTimeline
  cases hu : W.urlParse url with
  | none => simp [hu] at hp
  | some purl =>
    simp only [hu] at hp ⊢
    split at hp
    · simp only [Option.some.injEq, Prod.mk.injEq] at hp
      rw [← hp.1] at he; simp at he
    · split at hp
      · simp only [Option.some.injEq, Prod.mk.injEq] at hp
        rw [← hp.1] at he; simp at he
      · split at hp
        · simp only [Option.some.injEq, Prod.mk.injEq] at hp
          rw [← hp.1] at he; simp at he
        · split at hp
          · simp only [Option.some.injEq, Prod.mk.injEq] at hp
            rw [← hp.1] at he; simp at he
          · exact ⟨_, rfl⟩

/-- A run of one attempt that returns without error. -/
theorem ping_one_success {σ : Type} (W : World σ) (S : PingStats) (obj : Ping) (p : Vendor σ)
    (url : String) (timeout : Nat) (s s1 : σ) (r : ProbeResult)
    (hp : performPing W (contextWithTimeout W timeout s) p url s = some (r, s1))
    (he : r.err = none) :
    ∃ obj', ping W S obj (some p) url 1 timeout s = some (obj', s1) ∧
      obj'.PacketLoss = Float64.fin 0 ∧ obj'.RTTList = Slice.mk [r.fst] ∧
      obj'.RequestList = Slice.mk [r.snd] ∧ obj'.StatusCodes = Slice.mk [r.code] := by
  have hrun : attempts W p url timeout 1 s = some ([r], s1) := by
    simp [attempts, hp]
  have hs : successesOf [r] = [r] := by simp [successesOf, he]
  have hf : failedOf [r] = [] := by simp [failedOf, he]
  have hne : successesOf [r] ≠ [] := by rw [hs]; simp
  obtain ⟨q, hq, -, -, hz, -, -⟩ := Float64.packetLoss_value 0 1 (le_refl _) (by norm_num)
    (by norm_num)
  refine ⟨_, by rw [ping_eq, hrun]; rfl, ?_, ?_, ?_, ?_⟩
  · rw [calculateFinalMetrics_PacketLoss]
    simp only [hf, List.length_nil, hq, hz.2 rfl]
  · rw [calculateFinalMetrics_RTTList]
    simp only [if_neg hne, if_pos (successesOf_map_len [r] hne _)]
    simp [hs]
  · rw [calculateFinalMetrics_RequestList]
    simp only [if_neg hne, if_pos (successesOf_map_len [r] hne _)]
    simp [hs]
  · rw [calculateFinalMetrics_StatusCodes]
    simp [hs]

/-! ## The claims on the probe engine -/

/-- C1, as stated, fails: in a run of three attempts of which exactly one fails, `PacketLoss` is
the float64 value `33.33333333333333` (`2345624805922133 / 2^46`), which is neither the exact
`100 * 1 / 3` nor the float64 value of the expression `100 * failed / N`. -/
theorem ping_packetLoss_not_exact :
    (attempts simWorld simVendor "http://host/" 1000 3 ⟨[false, true, true], 0⟩).map
        (fun x => (failedOf x.1).length) = some 1 ∧
    (ping simWorld simStats zeroPing (some simVendor) "http://host/" 3 1000
        ⟨[false, true, true], 0⟩).map (fun x => x.1.PacketLoss) =
      some (Float64.fin (2345624805922133 / 70368744177664)) ∧
    Float64.fin (2345624805922133 / 70368744177664) ≠ Float64.fin (100 * 1 / 3) ∧
    Float64.fin (2345624805922133 / 70368744177664) ≠
      Float64.div (Float64.mul (Float64.fin 100) (Float64.ofNat 1)) (Float64.ofNat 3) := by
  decide!

/-- C1, amended: for `1 ≤ N < 2^16` attempts over a non-nil transport, `PacketLoss` is the float64
value of `float64(failed) / float64(N) * 100` (the division first, each operation rounded to
nearest), where `failed` is the number of attempts whose probe returned an error. It is a finite
number in `[0, 100]`, it is 0 iff no attempt failed and 100 iff all failed, and it differs from
the exact `100 * failed / N` by a relative error of at most `2^-51`. -/
theorem ping_packetLoss {σ : Type} (W : World σ) (S : PingStats) (obj : Ping) (p : Vendor σ)
    (url : String) (withAvg timeout : Nat) (s s2 : σ) (rs : List ProbeResult)
    (hN : 1 ≤ withAvg) (hN16 : withAvg < 65536)
    (hrun : attempts W p url timeout withAvg s = some (rs, s2)) :
    ∃ obj' q, ping W S obj (some p) url withAvg timeout s = some (obj', s2) ∧
      obj'.PacketLoss =
        Float64.mul (Float64.div (Float64.ofNat (failedOf rs).length) (Float64.ofNat withAvg))
          (Float64.fin 100) ∧
      obj'.PacketLoss = Float64.fin q ∧ 0 ≤ q ∧ q ≤ 100 ∧
      (q = 0 ↔ (failedOf rs).length = 0) ∧ (q = 100 ↔ (failedOf rs).length = withAvg) ∧
      |q - 100 * ((failedOf rs).length : ℚ) / withAvg| ≤
        100 * ((failedOf rs).length : ℚ) / withAvg * 2 ^ (-51 : ℤ) := by
  have hlen := attempts_length W p url timeout withAvg s rs s2 hrun
  have hle : (failedOf rs).length ≤ withAvg := hlen ▸ failedOf_length_le rs
  obtain ⟨q, hq, h0, h100, hz, hall, herr⟩ :=
    Float64.packetLoss_value (failedOf rs).length withAvg hN hN16 hle
  refine ⟨_, q, by rw [ping_eq, hrun]; rfl, ?_, ?_, h0, h100, hz, hall, herr⟩
  · rw [calculateFinalMetrics_PacketLoss]
  · rw [calculateFinalMetrics_PacketLoss, hq]

/-- Witness of C1 (amended): the run of three attempts whose first dial is refused. -/
theorem ping_packetLoss_witness :
    ∃ obj' q, ping simWorld simStats zeroPing (some simVendor) "http://host/" 3 1000
        ⟨[false, true, true], 0⟩ = some (obj', ⟨[], 21000000⟩) ∧
      obj'.PacketLoss =
        Float64.mul (Float64.div (Float64.ofNat 1) (Float64.ofNat 3)) (Float64.fin 100) ∧
      obj'.PacketLoss = Float64.fin q ∧ 0 ≤ q ∧ q ≤ 100 ∧
      (q = 0 ↔ 1 = 0) ∧ (q = 100 ↔ 1 = 3) ∧
      |q - 100 * ((1 : ℕ) : ℚ) / (3 : ℕ)| ≤ 100 * ((1 : ℕ) : ℚ) / (3 : ℕ) * 2 ^ (-51 : ℤ) :=
  ping_packetLoss simWorld simStats zeroPing simVendor "http://host/" 3 1000
    ⟨[false, true, true], 0⟩ ⟨[], 21000000⟩
    [⟨0, 0, 0, some "dial failed: refused"⟩, ⟨3, 7, 200, none⟩, ⟨3, 7, 200, none⟩]
    (by decide) (by decide) (by decide)

/-- C2, as stated, fails: on a result object that holds the samples of an earlier run, a run whose
single attempt fails leaves `RTT`, `MaxRTT`, `Request`, `MaxRequest` and the two latency lists as
they were. -/
theorem ping_all_failed_keeps_stale :
    (attempts simWorld simVendor "http://host/" 1000 1 ⟨[false], 0⟩).map
        (fun x => successesOf x.1) = some [] ∧
    (ping simWorld simStats usedPing (some simVendor) "http://host/" 1 1000 ⟨[false], 0⟩).map
        (fun x => (x.1.RTT, x.1.MaxRTT, x.1.Request, x.1.MaxRequest, x.1.RTTList,
          x.1.RequestList)) = some (7, 7, 9, 9, Slice.mk [7], Slice.mk [9]) :=
  ⟨by decide, rfl⟩

/-- C2, amended: for `1 ≤ N < 2^16` attempts over a non-nil transport that all fail, after `ping`
`PacketLoss == 100` and `StatusCodes` is nil whatever the result object held before; and on a
result object whose latency fields are 0 and whose latency lists are empty before the run (a
freshly created one), all latency fields (`RTT`, `RTTSD`, `MaxRTT`, `Request`, `RequestSD`,
`MaxRequest`) are 0 and `RTTList`, `RequestList` and `StatusCodes` are empty after it. -/
theorem ping_all_failed {σ : Type} (W : World σ) (S : PingStats) (obj : Ping) (p : Vendor σ)
    (url : String) (withAvg timeout : Nat) (s s2 : σ) (rs : List ProbeResult)
    (hN : 1 ≤ withAvg) (hN16 : withAvg < 65536)
    (hrun : attempts W p url timeout withAvg s = some (rs, s2))
    (hall : successesOf rs = []) :
    ∃ obj', ping W S obj (some p) url withAvg timeout s = some (obj', s2) ∧
      obj'.PacketLoss = Float64.fin 100 ∧ obj'.StatusCodes = Slice.nil ∧
      (obj.RTT = 0 ∧ obj.RTTSD = 0 ∧ obj.MaxRTT = 0 ∧ obj.Request = 0 ∧ obj.RequestSD = 0 ∧
          obj.MaxRequest = 0 ∧ obj.RTTList.len = 0 ∧ obj.RequestList.len = 0 →
        obj'.RTT = 0 ∧ obj'.RTTSD = 0 ∧ obj'.MaxRTT = 0 ∧ obj'.Request = 0 ∧ obj'.RequestSD = 0 ∧
          obj'.MaxRequest = 0 ∧ obj'.RTTList.len = 0 ∧ obj'.RequestList.len = 0 ∧
          obj'.StatusCodes.len = 0) := by
  have hlen := attempts_length W p url timeout withAvg s rs s2 hrun
  have hsum := failedOf_add_successesOf rs
  have hfail : (failedOf rs).length = withAvg := by
    rw [hall] at hsum; simpa [hlen] using hsum
  obtain ⟨q, hq, -, -, -, hq100, -⟩ :=
    Float64.packetLoss_value (failedOf rs).length withAvg hN hN16 hfail.le
  have hPL : Float64.mul (Float64.div (Float64.ofNat (failedOf rs).length)
      (Float64.ofNat withAvg)) (Float64.fin 100) = Float64.fin 100 := by
    rw [hq, hq100.2 hfail]
  refine ⟨_, by rw [ping_eq, hrun]; rfl, ?_, ?_, ?_⟩
  · rw [calculateFinalMetrics_PacketLoss, hPL]
  · simp [calculateFinalMetrics_StatusCodes, hall]
  · rintro ⟨h1, h2, h3, h4, h5, h6, h7, h8⟩
    simp only [hall, if_true, calculateFinalMetrics_nil, List.foldl_nil]
    exact ⟨h1, h2, h3, h4, h5, h6, h7, h8, rfl⟩

/-- Witness of C2 (amended): five refused dials on a fresh result object. -/
theorem ping_all_failed_witness :
    ∃ obj', ping simWorld simStats zeroPing (some simVendor) "http://host/" 5 1000
        ⟨[false, false, false, false, false], 0⟩ = some (obj', ⟨[], 5000000⟩) ∧
      obj'.PacketLoss = Float64.fin 100 ∧ obj'.StatusCodes = Slice.nil ∧
      (zeroPing.RTT = 0 ∧ zeroPing.RTTSD = 0 ∧ zeroPing.MaxRTT = 0 ∧ zeroPing.Request = 0 ∧
          zeroPing.RequestSD = 0 ∧ zeroPing.MaxRequest = 0 ∧ zeroPing.RTTList.len = 0 ∧
          zeroPing.RequestList.len = 0 →
        obj'.RTT = 0 ∧ obj'.RTTSD = 0 ∧ obj'.MaxRTT = 0 ∧ obj'.Request = 0 ∧ obj'.RequestSD = 0 ∧
          obj'.MaxRequest = 0 ∧ obj'.RTTList.len = 0 ∧ obj'.RequestList.len = 0 ∧
          obj'.StatusCodes.len = 0) :=
  ping_all_failed simWorld simStats zeroPing simVendor "http://host/" 5 1000
    ⟨[false, false, false, false, false], 0⟩ ⟨[], 5000000⟩
    (List.replicate 5 ⟨0, 0, 0, some "dial failed: refused"⟩)
    (by decide) (by decide) (by decide) (by decide)

/-- C3, as stated, fails: on a result object that holds one sample of an earlier run, a run whose
single attempt fails leaves `RTTList` and `RequestList` with one entry each, while `StatusCodes`
is empty and no attempt of this run succeeded. -/
theorem ping_lists_len_stale :
    (attempts simWorld simVendor "http://host/" 1000 1 ⟨[false], 0⟩).map
        (fun x => (successesOf x.1).length) = some 0 ∧
    (ping simWorld simStats usedPing (some simVendor) "http://host/" 1 1000 ⟨[false], 0⟩).map
        (fun x => (x.1.RTTList.len, x.1.RequestList.len, x.1.StatusCodes.len)) =
      some (1, 1, 0) := by
  decide

/-- C3, amended: after `ping` returns, for every transport (nil or not), every attempt count and
every sequence of attempt outcomes, `len(RTTList) == len(RequestList) == len(StatusCodes)` and
this length is the number of successful attempts of the run, provided the transport is nil, or
at least one attempt succeeded, or `RTTList` and `RequestList` of the result object were empty
before the run (as in a freshly created one). -/
theorem ping_lists_len {σ : Type} (W : World σ) (S : PingStats) (obj : Ping)
    (p : Option (Vendor σ)) (url : String) (withAvg timeout : Nat) (s s2 : σ)
    (rs : List ProbeResult)
    (hrun : runOf W p url timeout withAvg s = some (rs, s2))
    (hprior : p = none ∨ successesOf rs ≠ [] ∨
      (obj.RTTList.len = 0 ∧ obj.RequestList.len = 0)) :
    ∃ obj', ping W S obj p url withAvg timeout s = some (obj', s2) ∧
      obj'.RTTList.len = (successesOf rs).length ∧
      obj'.RequestList.len = (successesOf rs).length ∧
      obj'.StatusCodes.len = (successesOf rs).length := by
  cases p with
  | none =>
    simp only [runOf, Option.some.injEq, Prod.mk.injEq] at hrun
    obtain ⟨h1, h2⟩ := hrun
    subst h1 h2
    exact ⟨initFailedPing obj, rfl, rfl, rfl, rfl⟩
  | some v =>
    simp only [runOf] at hrun
    refine ⟨_, by rw [ping_eq, hrun]; rfl, ?_, ?_, ?_⟩
    · rw [calculateFinalMetrics_RTTList]
      by_cases hs : successesOf rs = []
      · have h3 : obj.RTTList.len = 0 := by
          rcases hprior with h | h | h
          · exact absurd h (by simp)
          · exact absurd hs h
          · exact h.1
        simp [hs, Slice.len, Slice.toList] at h3 ⊢
        exact h3
      · simp [hs, Slice.len, Slice.toList, List.length_pos.2 hs]
    · rw [calculateFinalMetrics_RequestList]
      by_cases hs : successesOf rs = []
      · have h3 : obj.RequestList.len = 0 := by
          rcases hprior with h | h | h
          · exact absurd h (by simp)
          · exact absurd hs h
          · exact h.2
        simp [hs, Slice.len, Slice.toList] at h3 ⊢
        exact h3
      · simp [hs, Slice.len, Slice.toList, List.length_pos.2 hs]
    · rw [calculateFinalMetrics_StatusCodes]
      by_cases hs : successesOf rs = [] <;> simp [hs, Slice.len, Slice.toList]

/-- Witness of C3 (amended): a TLS run of three attempts, the first dial refused, on a result
object that holds samples of an earlier run. -/
theorem ping_lists_len_witness :
    ∃ obj', ping simWorld simStats usedPing (some simVendor) "https://host/" 3 1000
        ⟨[false, true, true], 0⟩ = some (obj', ⟨[], 23000000⟩) ∧
      obj'.RTTList.len = 2 ∧ obj'.RequestList.len = 2 ∧ obj'.StatusCodes.len = 2 :=
  ping_lists_len simWorld simStats usedPing (some simVendor) "https://host/" 3 1000
    ⟨[false, true, true], 0⟩ ⟨[], 23000000⟩
    [⟨0, 0, 0, some "refused"⟩, ⟨5, 11, 200, none⟩, ⟨5, 11, 200, none⟩]
    (by decide) (Or.inr (Or.inl (by decide)))

/-- C4: with a nil transport `ping` makes no attempt at all, for every attempt count and timeout:
it returns at once with the world untouched, the run has no attempt, and the result reports
100% loss: `PacketLoss == 100`, `RTT == 0`, `Request == 0`, `Jitter == 0`, and `RTTList`,
`RequestList` and `StatusCodes` are nil. -/
theorem ping_nil_transport {σ : Type} (W : World σ) (S : PingStats) (obj : Ping) (url : String)
    (withAvg timeout : Nat) (s : σ) :
    runOf W none url timeout withAvg s = some ([], s) ∧
    ∃ obj', ping W S obj none url withAvg timeout s = some (obj', s) ∧
      obj'.PacketLoss = Float64.fin 100 ∧ obj'.RTT = 0 ∧ obj'.Request = 0 ∧ obj'.Jitter = 0 ∧
      obj'.RTTList = Slice.nil ∧ obj'.RequestList = Slice.nil ∧ obj'.StatusCodes = Slice.nil :=
  ⟨rfl, initFailedPing obj, rfl, rfl, rfl, rfl, rfl, rfl, rfl, rfl⟩

/-- C5: after a run over a non-nil transport with at least one successful attempt, `RTTList`,
`RequestList` and `StatusCodes` are exactly the first, second and third result components of the
successful attempts, in attempt order; failed attempts contribute no entry, and neither does
what the result object held before. -/
theorem ping_lists_content {σ : Type} (W : World σ) (S : PingStats) (obj : Ping) (p : Vendor σ)
    (url : String) (withAvg timeout : Nat) (s s2 : σ) (rs : List ProbeResult)
    (hrun : attempts W p url timeout withAvg s = some (rs, s2))
    (hsucc : successesOf rs ≠ []) :
    ∃ obj', ping W S obj (some p) url withAvg timeout s = some (obj', s2) ∧
      obj'.RTTList = Slice.mk ((successesOf rs).map fun r => r.fst) ∧
      obj'.RequestList = Slice.mk ((successesOf rs).map fun r => r.snd) ∧
      obj'.StatusCodes = Slice.mk ((successesOf rs).map fun r => r.code) := by
  refine ⟨_, by rw [ping_eq, hrun]; rfl, ?_, ?_, ?_⟩
  · simp only [calculateFinalMetrics_RTTList, if_neg hsucc,
      if_pos (successesOf_map_len rs hsucc _)]
  · simp only [calculateFinalMetrics_RequestList, if_neg hsucc,
      if_pos (successesOf_map_len rs hsucc _)]
  · simp only [calculateFinalMetrics_StatusCodes, if_neg hsucc]

/-- Witness of C5: a plaintext run of three attempts whose first dial is refused. -/
theorem ping_lists_content_witness :
    ∃ obj', ping simWorld simStats usedPing (some simVendor) "http://host/" 3 1000
        ⟨[false, true, true], 0⟩ = some (obj', ⟨[], 21000000⟩) ∧
      obj'.RTTList = Slice.mk [3, 3] ∧ obj'.RequestList = Slice.mk [7, 7] ∧
      obj'.StatusCodes = Slice.mk [200, 200] :=
  ping_lists_content simWorld simStats usedPing simVendor "http://host/" 3 1000
    ⟨[false, true, true], 0⟩ ⟨[], 21000000⟩
    [⟨0, 0, 0, some "dial failed: refused"⟩, ⟨3, 7, 200, none⟩, ⟨3, 7, 200, none⟩]
    (by decide) (by decide)

/-- When the URL is `https:` or parses, `ping` over a non-nil transport makes exactly `withAvg`
attempts, one after the other, whichever of them fail, and returns: the loop ends in the world
left by `withAvg` consecutive calls of `performPing`, its failure counter counts the failed ones,
its sample lists hold the successful ones, and the two numbers add up to `withAvg`. -/
theorem ping_attempt_count {σ : Type} (W : World σ) (S : PingStats) (obj : Ping) (p : Vendor σ)
    (url : String) (withAvg timeout : Nat) (s : σ)
    (hurl : HasPrefix url "https:" = true ∨ (W.urlParse url).isSome = true) :
    ∃ rs s2 st obj', attempts W p url timeout withAvg s = some (rs, s2) ∧
      rs.length = withAvg ∧
      pingLoop W p url timeout withAvg ⟨obj, Slice.nil, Slice.nil, Slice.nil, 0⟩ s =
        some (st, s2) ∧
      ping W S obj (some p) url withAvg timeout s = some (obj', s2) ∧
      st.failedAttempt = (failedOf rs).length ∧
      st.rttTimes.len = (successesOf rs).length ∧
      st.requestTimes.len = (successesOf rs).length ∧
      st.statusCodes.len = (successesOf rs).length ∧
      st.failedAttempt + st.statusCodes.len = withAvg := by
  obtain ⟨rs, s2, hrun⟩ := attempts_isSome W p url timeout hurl withAvg s
  have hlen := attempts_length W p url timeout withAvg s rs s2 hrun
  have hsum := failedOf_add_successesOf rs
  refine ⟨rs, s2, _, _, hrun, hlen, by rw [pingLoop_eq_foldl, hrun]; rfl,
    by rw [ping_eq, hrun]; rfl, ?_, ?_, ?_, ?_, ?_⟩
  · simp [foldl_failedAttempt]
  · rw [foldl_rttTimes]; split_ifs with h <;> simp [Slice.len, Slice.toList, h]
  · rw [foldl_requestTimes]; split_ifs with h <;> simp [Slice.len, Slice.toList, h]
  · rw [foldl_statusCodes]; split_ifs with h <;> simp [Slice.len, Slice.toList, h]
  · rw [foldl_statusCodes, foldl_failedAttempt]
    split_ifs with h <;> simp [Slice.len, Slice.toList, h] at hsum ⊢ <;> omega

/-- An instance of `ping_attempt_count`: a plaintext run of three attempts whose first dial is
refused. -/
theorem ping_attempt_count_witness :
    ∃ rs s2 st obj',
      attempts simWorld simVendor "http://host/" 1000 3 ⟨[false, true, true], 0⟩ = some (rs, s2) ∧
      rs.length = 3 ∧
      pingLoop simWorld simVendor "http://host/" 1000 3
        ⟨zeroPing, Slice.nil, Slice.nil, Slice.nil, 0⟩ ⟨[false, true, true], 0⟩ = some (st, s2) ∧
      ping simWorld simStats zeroPing (some simVendor) "http://host/" 3 1000
        ⟨[false, true, true], 0⟩ = some (obj', s2) ∧
      st.failedAttempt = (failedOf rs).length ∧
      st.rttTimes.len = (successesOf rs).length ∧
      st.requestTimes.len = (successesOf rs).length ∧
      st.statusCodes.len = (successesOf rs).length ∧
      st.failedAttempt + st.statusCodes.len = 3 :=
  ping_attempt_count simWorld simStats zeroPing simVendor "http://host/" 3 1000
    ⟨[false, true, true], 0⟩ (Or.inr (by decide))

/-- A plaintext attempt on a URL that `url.Parse` rejects panics, and with it every run of at
least one attempt. -/
theorem ping_panics_of_urlParse_none {σ : Type} (W : World σ) (S : PingStats) (obj : Ping)
    (p : Vendor σ) (url : String) (n timeout : Nat) (s : σ)
    (hhttps : HasPrefix url "https:" = false) (hparse : W.urlParse url = none) :
    performPing W (contextWithTimeout W timeout s) p url s = none ∧
    attempts W p url timeout (n + 1) s = none ∧
    (∀ st, pingLoop W p url timeout (n + 1) st s = none) ∧
    ping W S obj (some p) url (n + 1) timeout s = none := by
  have h1 : performPing W (contextWithTimeout W timeout s) p url s = none := by
    simp [performPing, hhttps, pingViaNetCat, hparse]
  have h2 : attempts W p url timeout (n + 1) s = none := by simp [attempts, h1]
  exact ⟨h1, h2, fun st => by simp [pingLoop, h1], by rw [ping_eq, h2]; rfl⟩

/-- C6, on the code: the plaintext probe discards the error of `url.Parse` and dereferences the
nil URL. For the URL `http://[::1`, which is not `https:` and does not parse, and `N = 2`, the
first attempt panics: there is no run of two attempts, the loop does not return, `ping` does
not return, and nothing is counted; the second attempt is never made. -/
theorem ping_unparsable_url_panics :
    HasPrefix "http://[::1" "https:" = false ∧
    simWorldNoParse.urlParse "http://[::1" = none ∧
    performPing simWorldNoParse (contextWithTimeout simWorldNoParse 1000 ⟨[true, true], 0⟩)
        simVendor "http://[::1" ⟨[true, true], 0⟩ = none ∧
    attempts simWorldNoParse simVendor "http://[::1" 1000 2 ⟨[true, true], 0⟩ = none ∧
    (∀ st, pingLoop simWorldNoParse simVendor "http://[::1" 1000 2 st ⟨[true, true], 0⟩ = none) ∧
    ping simWorldNoParse simStats zeroPing (some simVendor) "http://[::1" 2 1000
        ⟨[true, true], 0⟩ = none :=
  ⟨by decide, by decide,
    (ping_panics_of_urlParse_none simWorldNoParse simStats zeroPing simVendor "http://[::1" 1
      1000 ⟨[true, true], 0⟩ (by decide) (by decide)).1,
    (ping_panics_of_urlParse_none simWorldNoParse simStats zeroPing simVendor "http://[::1" 1
      1000 ⟨[true, true], 0⟩ (by decide) (by decide)).2.1,
    (ping_panics_of_urlParse_none simWorldNoParse simStats zeroPing simVendor "http://[::1" 1
      1000 ⟨[true, true], 0⟩ (by decide) (by decide)).2.2.1,
    (ping_panics_of_urlParse_none simWorldNoParse simStats zeroPing simVendor "http://[::1" 1
      1000 ⟨[true, true], 0⟩ (by decide) (by decide)).2.2.2⟩

/-! ## The claims on the metric registry and the packet-loss extractor -/

theorem Find_of_not_registered (t : SlaveRequestMatrixType)
    (h : t ∉ registeredList.map Prod.fst) : Find t = SlaveRequestMatrix.Invalid := by
  cases t <;> first | rfl | exact absurd (by decide) h

/-- C7: the registry has nine keys, all different. For every metric type that is not one of
them, `Find` returns the Invalid extractor; for every registered key it returns what the factory
stored under that key in the registry builds, which is not Invalid. `Find` is a total function:
it never fails. -/
theorem Find_registry :
    (registeredList.map Prod.fst).length = 9 ∧ (registeredList.map Prod.fst).Nodup ∧
    ∀ t : SlaveRequestMatrixType,
      (t ∉ registeredList.map Prod.fst → Find t = SlaveRequestMatrix.Invalid) ∧
      (t ∈ registeredList.map Prod.fst →
        ∃ newFn, registeredList.lookup t = some (some newFn) ∧ Find t = newFn () ∧
          Find t ≠ SlaveRequestMatrix.Invalid) := by
  refine ⟨rfl, by decide, fun t => ⟨Find_of_not_registered t, fun h => ?_⟩⟩
  cases t <;>
    first
    | exact ⟨_, rfl, rfl, by decide⟩
    | exact absurd h (by simp [registeredList])

/-- C8: `FindBatch` returns one extractor per requested type, in order: the result has the
length of the input and its i-th element is `Find` of the i-th input, duplicates and unknown
types included. In particular a batch of two types and an unregistered one gives three
extractors, the third Invalid. -/
theorem FindBatch_spec (ts : List SlaveRequestMatrixType) :
    (FindBatch ts).length = ts.length ∧
    (∀ i : Nat, (FindBatch ts)[i]? = ts[i]?.map Find) ∧
    (∀ A B u : SlaveRequestMatrixType, u ∉ registeredList.map Prod.fst →
      FindBatch [A, B, u] = [Find A, Find B, SlaveRequestMatrix.Invalid]) := by
  refine ⟨by simp [FindBatch, structs.Map], fun i => by simp [FindBatch, structs.Map],
    fun A B u hu => ?_⟩
  simp [FindBatch, structs.Map, Find_of_not_registered u hu]

/-- C9, on the code: the registry has no entry for `MatrixPacketLoss`, so `Find` answers it
with the Invalid extractor, never with the packet-loss extractor, although that extractor
reports `MatrixPacketLoss` as its type and `MacroPing` as its job. -/
theorem Find_MatrixPacketLoss :
    SlaveRequestMatrixType.MatrixPacketLoss ∉ registeredList.map Prod.fst ∧
    Find SlaveRequestMatrixType.MatrixPacketLoss = SlaveRequestMatrix.Invalid ∧
    ∀ m : PacketLoss, m.Type_ = SlaveRequestMatrixType.MatrixPacketLoss ∧
      m.MacroJob = SlaveRequestMacroType.MacroPing ∧
      Find m.Type_ ≠ SlaveRequestMatrix.PacketLoss m :=
  ⟨by decide, rfl, fun m => ⟨rfl, rfl, fun h => by
    have h2 : SlaveRequestMatrix.Invalid = SlaveRequestMatrix.PacketLoss m := h
    cases h2⟩⟩

/-- C10: for every request entry, every previous value of the extractor and every Ping result
`r`, `Extract` returns normally, the extractor's `Value` is then exactly `r.PacketLoss`, and the
job result is unchanged. -/
theorem PacketLoss_Extract_ping (m : PacketLoss) (entry : SlaveRequestMatrixEntry) (r : Ping) :
    ∃ m', PacketLoss.Extract m entry (SlaveRequestMacro.ping (some r)) =
        some (m', SlaveRequestMacro.ping (some r)) ∧
      m'.Value = r.PacketLoss :=
  ⟨_, rfl, rfl⟩

/-! ## The claims on the extractor, the bounded reader, the probes and the statistics -/

/-- C11: for every job result whose concrete type is not `*ping.Ping` (the nil interface
included), `Extract` returns normally without assigning anything: the extractor, hence its
`Value`, and the job result are what they were before the call; for a freshly constructed
extractor the `Value` stays 0. -/
theorem PacketLoss_Extract_other (m : PacketLoss) (entry : SlaveRequestMatrixEntry)
    (job : SlaveRequestMacro) (hjob : ∀ r, job ≠ SlaveRequestMacro.ping r) :
    PacketLoss.Extract m entry job = some (m, job) ∧
    ∀ m', PacketLoss.Extract ⟨⟨Float64.fin 0⟩⟩ entry job = some (m', job) →
      m'.Value = Float64.fin 0 := by
  cases job with
  | nil => exact ⟨rfl, fun m' h => by cases h; rfl⟩
  | other name => exact ⟨rfl, fun m' h => by cases h; rfl⟩
  | ping r => exact absurd rfl (hjob r)

/-- Witness of C11: the nil job result, on an extractor that holds 50. -/
theorem PacketLoss_Extract_other_witness :
    PacketLoss.Extract ⟨⟨Float64.fin 50⟩⟩ ⟨SlaveRequestMatrixType.MatrixPacketLoss, ""⟩
        SlaveRequestMacro.nil = some (⟨⟨Float64.fin 50⟩⟩, SlaveRequestMacro.nil) ∧
    ∀ m', PacketLoss.Extract ⟨⟨Float64.fin 0⟩⟩ ⟨SlaveRequestMatrixType.MatrixPacketLoss, ""⟩
        SlaveRequestMacro.nil = some (m', SlaveRequestMacro.nil) → m'.Value = Float64.fin 0 :=
  PacketLoss_Extract_other ⟨⟨Float64.fin 50⟩⟩ ⟨SlaveRequestMatrixType.MatrixPacketLoss, ""⟩
    SlaveRequestMacro.nil (fun r h => by cases h)

/-- C12: the bounded reader, with the clock read from the world: when the current time is after
the deadline, `Read` returns `(0, "read timeout")` and leaves the world as it was, whatever the
underlying reader is (it is not invoked); otherwise `Read` is exactly the underlying reader's
`Read` for that call. -/
theorem timeoutReader_Read_spec {σ : Type} (W : World σ) (tr : timeoutReader σ) (p : Nat)
    (s : σ) :
    (tr.timeout < W.now s →
      (∀ r, timeoutReader.Read W ⟨r, tr.timeout⟩ p s = (⟨0, some "read timeout"⟩, s))) ∧
    (¬ tr.timeout < W.now s → timeoutReader.Read W tr p s = tr.r p s) := by
  constructor
  · intro h r
    simp [timeoutReader.Read, h]
  · intro h
    simp [timeoutReader.Read, h]

/-- C13: after a run with at least one successful attempt on a result object whose `MaxRTT` and
`MaxRequest` are 0 before the run (a freshly created one), `MaxRTT` is the maximum element of
`RTTList` and `MaxRequest` the maximum element of `RequestList`: each is one of the samples of its
list and at least every sample of it. -/
theorem ping_max {σ : Type} (W : World σ) (S : PingStats) (obj : Ping) (p : Vendor σ)
    (url : String) (withAvg timeout : Nat) (s s2 : σ) (rs : List ProbeResult)
    (hrun : attempts W p url timeout withAvg s = some (rs, s2))
    (hsucc : successesOf rs ≠ [])
    (hfresh : obj.MaxRTT = 0 ∧ obj.MaxRequest = 0) :
    ∃ obj', ping W S obj (some p) url withAvg timeout s = some (obj', s2) ∧
      obj'.MaxRTT ∈ obj'.RTTList.toList ∧ (∀ x ∈ obj'.RTTList.toList, x ≤ obj'.MaxRTT) ∧
      obj'.MaxRequest ∈ obj'.RequestList.toList ∧
      (∀ x ∈ obj'.RequestList.toList, x ≤ obj'.MaxRequest) := by
  have hne1 : (successesOf rs).map (fun r => r.fst) ≠ [] := by simpa using hsucc
  have hne2 : (successesOf rs).map (fun r => r.snd) ≠ [] := by simpa using hsucc
  have hf1 : (successesOf rs).foldl (fun m r => structs.Max m r.fst) 0 =
      ((successesOf rs).map fun r => r.fst).foldl structs.Max 0 := by
    rw [List.foldl_map]
  have hf2 : (successesOf rs).foldl (fun m r => structs.Max m r.snd) 0 =
      ((successesOf rs).map fun r => r.snd).foldl structs.Max 0 := by
    rw [List.foldl_map]
  obtain ⟨ha1, ha2⟩ := foldl_Max_zero _ hne1
  obtain ⟨hb1, hb2⟩ := foldl_Max_zero _ hne2
  refine ⟨_, by rw [ping_eq, hrun]; rfl, ?_, ?_, ?_, ?_⟩
  · rw [(calculateFinalMetrics_Max S _ _ _ _ _ _).1, calculateFinalMetrics_RTTList]
    simp only [if_neg hsucc, if_pos (successesOf_map_len rs hsucc _), hfresh.1, hf1,
      Slice.toList]
    exact ha1
  · rw [(calculateFinalMetrics_Max S _ _ _ _ _ _).1, calculateFinalMetrics_RTTList]
    simp only [if_neg hsucc, if_pos (successesOf_map_len rs hsucc _), hfresh.1, hf1,
      Slice.toList]
    exact ha2
  · rw [(calculateFinalMetrics_Max S _ _ _ _ _ _).2, calculateFinalMetrics_RequestList]
    simp only [if_neg hsucc, if_pos (successesOf_map_len rs hsucc _), hfresh.2, hf2,
      Slice.toList]
    exact hb1
  · rw [(calculateFinalMetrics_Max S _ _ _ _ _ _).2, calculateFinalMetrics_RequestList]
    simp only [if_neg hsucc, if_pos (successesOf_map_len rs hsucc _), hfresh.2, hf2,
      Slice.toList]
    exact hb2

/-- Witness of C13: a TLS run of three attempts, the first dial refused, on a fresh result
object. -/
theorem ping_max_witness :
    ∃ obj', ping simWorld simStats zeroPing (some simVendor) "https://host/" 3 1000
        ⟨[false, true, true], 0⟩ = some (obj', ⟨[], 23000000⟩) ∧
      obj'.MaxRTT ∈ obj'.RTTList.toList ∧ (∀ x ∈ obj'.RTTList.toList, x ≤ obj'.MaxRTT) ∧
      obj'.MaxRequest ∈ obj'.RequestList.toList ∧
      (∀ x ∈ obj'.RequestList.toList, x ≤ obj'.MaxRequest) :=
  ping_max simWorld simStats zeroPing simVendor "https://host/" 3 1000
    ⟨[false, true, true], 0⟩ ⟨[], 23000000⟩
    [⟨0, 0, 0, some "refused"⟩, ⟨5, 11, 200, none⟩, ⟨5, 11, 200, none⟩]
    (by decide) (by decide) ⟨rfl, rfl⟩

/-- C14: `performPing` selects the probe by the URL scheme: for a URL that begins with `https:`
it returns the result of `pingViaTrace`, for every other URL the result of `pingViaNetCat`. -/
theorem performPing_spec {σ : Type} (W : World σ) (ctx : Context) (p : Vendor σ) (url : String)
    (s : σ) :
    (HasPrefix url "https:" = true →
      performPing W ctx p url s = some (pingViaTrace W ctx p url s)) ∧
    (HasPrefix url "https:" = false →
      performPing W ctx p url s = pingViaNetCat W ctx p url s) := by
  constructor <;> intro h <;> simp [performPing, h]

/-- C15: with the statistics helpers of the specification, after a run with exactly one
successful attempt the standard deviation is 0 for both latency series: `RTTSD == 0`,
`Jitter == 0` and `RequestSD == 0`. -/
theorem ping_single_success_sd {σ : Type} (W : World σ) (obj : Ping) (p : Vendor σ)
    (url : String) (withAvg timeout : Nat) (s s2 : σ) (rs : List ProbeResult)
    (hrun : attempts W p url timeout withAvg s = some (rs, s2))
    (hone : (successesOf rs).length = 1) :
    ∃ obj', ping W specStats obj (some p) url withAvg timeout s = some (obj', s2) ∧
      obj'.RTTSD = 0 ∧ obj'.Jitter = 0 ∧ obj'.RequestSD = 0 := by
  have hsucc : successesOf rs ≠ [] := by
    intro h; rw [h] at hone; simp at hone
  have hsd : ∀ l : List Nat, l.length = 1 → specStats.calcStdDevPing (Slice.mk l) = 0 := by
    intro l hl
    simp [specStats, calcStdDevPing, Slice.len, Slice.toList, hl]
  refine ⟨_, by rw [ping_eq, hrun]; rfl, ?_, ?_, ?_⟩
  · simp only [if_neg hsucc]
    rw [(calculateFinalMetrics_Jitter specStats _ _ _ _ _ _ (successesOf_map_len rs hsucc _)).2]
    exact hsd _ (by simpa using hone)
  · simp only [if_neg hsucc]
    rw [(calculateFinalMetrics_Jitter specStats _ _ _ _ _ _ (successesOf_map_len rs hsucc _)).1]
    exact hsd _ (by simpa using hone)
  · simp only [if_neg hsucc]
    rw [calculateFinalMetrics_RequestSD specStats _ _ _ _ _ _ (successesOf_map_len rs hsucc _)]
    exact hsd _ (by simpa using hone)

/-- Witness of C15: a plaintext run of two attempts, the first dial refused, on a result object
that holds samples of an earlier run. -/
theorem ping_single_success_sd_witness :
    ∃ obj', ping simWorld specStats usedPing (some simVendor) "http://host/" 2 1000
        ⟨[false, true], 0⟩ = some (obj', ⟨[], 11000000⟩) ∧
      obj'.RTTSD = 0 ∧ obj'.Jitter = 0 ∧ obj'.RequestSD = 0 :=
  ping_single_success_sd simWorld usedPing simVendor "http://host/" 2 1000
    ⟨[false, true], 0⟩ ⟨[], 11000000⟩
    [⟨0, 0, 0, some "dial failed: refused"⟩, ⟨3, 7, 200, none⟩]
    (by decide) (by decide)

/-- C16: the degraded path of the plaintext probe. When the URL parses, the dial, both writes
and the peek after the second write succeed, and the parse of the status line fails, then
`pingViaNetCat` returns no error, with the request RTT as first result, 0 in the place of the
connect RTT and status code 0. The loop of `ping` then does not touch its failure counter: it
appends the request RTT sample to its first list, a 0 to the second list and a 0 to the status
codes; and a run that consists of this one attempt reports 0% loss with these three entries. -/
theorem pingViaNetCat_degraded {σ : Type} (W : World σ) (S : PingStats) (obj : Ping)
    (p : Vendor σ) (url : String) (timeout : Nat) (s s8 : σ) (t : NetCatTimeline σ) (c : Int)
    (e : Error)
    (hhttps : HasPrefix url "https:" = false)
    (ht : netCatTimeline W (contextWithTimeout W timeout s) p url s = some t)
    (hparse : saferParseHTTPStatus W t.conn t.afterPeek = ((c, some e), s8)) :
    pingViaNetCat W (contextWithTimeout W timeout s) p url s =
        some (⟨uint16 t.requestRTT, 0, 0, none⟩, W.connClose t.conn s8) ∧
    (∀ (n : Nat) (st : pingState),
      pingLoop W p url timeout (n + 1) st s =
        pingLoop W p url timeout n
          { st with
            obj := updatePingMetrics st.obj (uint16 t.requestRTT) 0
            rttTimes := st.rttTimes.append (uint16 t.requestRTT)
            requestTimes := st.requestTimes.append 0
            statusCodes := st.statusCodes.append 0 } (W.connClose t.conn s8)) ∧
    ∃ obj', ping W S obj (some p) url 1 timeout s = some (obj', W.connClose t.conn s8) ∧
      obj'.PacketLoss = Float64.fin 0 ∧ obj'.RTTList = Slice.mk [uint16 t.requestRTT] ∧
      obj'.RequestList = Slice.mk [0] ∧ obj'.StatusCodes = Slice.mk [0] := by
  have h1 : pingViaNetCat W (contextWithTimeout W timeout s) p url s =
      some (⟨uint16 t.requestRTT, 0, 0, none⟩, W.connClose t.conn s8) := by
    rw [pingViaNetCat_of_timeline W _ p url s t ht, hparse]
  have h2 : performPing W (contextWithTimeout W timeout s) p url s =
      some (⟨uint16 t.requestRTT, 0, 0, none⟩, W.connClose t.conn s8) := by
    simp [performPing, hhttps, h1]
  exact ⟨h1, fun n st => pingLoop_succ_of_success W p url timeout n st s _ _ h2 rfl,
    ping_one_success W S obj p url timeout s _ _ h2 rfl⟩

/-- Witness of C16: a peer that answers both writes, but not with an HTTP response. -/
theorem pingViaNetCat_degraded_witness :
    pingViaNetCat simWorldGarbled (contextWithTimeout simWorldGarbled 1000 ⟨[true], 0⟩)
        simVendor "http://host/" ⟨[true], 0⟩ =
        some (⟨uint16 simTimeline.requestRTT, 0, 0, none⟩,
          simWorldGarbled.connClose simTimeline.conn ⟨[], 10000000⟩) ∧
    (∀ (n : Nat) (st : pingState),
      pingLoop simWorldGarbled simVendor "http://host/" 1000 (n + 1) st ⟨[true], 0⟩ =
        pingLoop simWorldGarbled simVendor "http://host/" 1000 n
          { st with
            obj := updatePingMetrics st.obj (uint16 simTimeline.requestRTT) 0
            rttTimes := st.rttTimes.append (uint16 simTimeline.requestRTT)
            requestTimes := st.requestTimes.append 0
            statusCodes := st.statusCodes.append 0 }
          (simWorldGarbled.connClose simTimeline.conn ⟨[], 10000000⟩)) ∧
    ∃ obj', ping simWorldGarbled simStats zeroPing (some simVendor) "http://host/" 1 1000
        ⟨[true], 0⟩ = some (obj', simWorldGarbled.connClose simTimeline.conn ⟨[], 10000000⟩) ∧
      obj'.PacketLoss = Float64.fin 0 ∧
      obj'.RTTList = Slice.mk [uint16 simTimeline.requestRTT] ∧
      obj'.RequestList = Slice.mk [0] ∧ obj'.StatusCodes = Slice.mk [0] :=
  pingViaNetCat_degraded simWorldGarbled simStats zeroPing simVendor "http://host/" 1000
    ⟨[true], 0⟩ ⟨[], 10000000⟩ simTimeline 0 "malformed HTTP response" (by decide) (by rfl)
    (by rfl)

/-- C17, as stated, fails: in a plaintext attempt with connect RTT 7 ms and request RTT 3 ms,
the engine records 3 (the request RTT) in `RTTList`, `RTT` and `MaxRTT`, and 7 (the connect RTT)
in `RequestList`, `Request` and `MaxRequest`. -/
theorem ping_plaintext_rtt_swapped :
    HasPrefix "http://host/" "https:" = false ∧
    (netCatTimeline simWorld (contextWithTimeout simWorld 1000 ⟨[true], 0⟩) simVendor
        "http://host/" ⟨[true], 0⟩).map (fun t => (t.connectRTT, t.requestRTT)) = some (7, 3) ∧
    (ping simWorld specStats zeroPing (some simVendor) "http://host/" 1 1000 ⟨[true], 0⟩).map
        (fun x => (x.1.RTTList, x.1.RTT, x.1.MaxRTT)) = some (Slice.mk [3], 3, 3) ∧
    (ping simWorld specStats zeroPing (some simVendor) "http://host/" 1 1000 ⟨[true], 0⟩).map
        (fun x => (x.1.RequestList, x.1.Request, x.1.MaxRequest)) = some (Slice.mk [7], 7, 7) :=
  ⟨by decide, by decide, by decide, by decide⟩

/-- A plaintext (non-https) attempt that returns without error has a timeline; the first result
of the probe is its request RTT and the second its connect RTT, or 0 when the status line could
not be parsed; and the loop of `ping` appends the two results to its two lists in that order. -/
theorem performPing_plaintext_result {σ : Type} (W : World σ) (p : Vendor σ) (url : String)
    (timeout : Nat) (s s1 : σ) (r : ProbeResult)
    (hhttps : HasPrefix url "https:" = false)
    (hp : performPing W (contextWithTimeout W timeout s) p url s = some (r, s1))
    (he : r.err = none) :
    ∃ t, netCatTimeline W (contextWithTimeout W timeout s) p url s = some t ∧
      r.fst = uint16 t.requestRTT ∧
      r.snd = (if (saferParseHTTPStatus W t.conn t.afterPeek).1.2.isNone then
        uint16 t.connectRTT else 0) ∧
      ∀ (n : Nat) (st : pingState),
        pingLoop W p url timeout (n + 1) st s =
          pingLoop W p url timeout n
            { st with
              obj :=
                { st.obj with
                  MaxRTT := structs.Max st.obj.MaxRTT r.fst
                  MaxRequest := structs.Max st.obj.MaxRequest r.snd }
              rttTimes := st.rttTimes.append r.fst
              requestTimes := st.requestTimes.append r.snd
              statusCodes := st.statusCodes.append r.code } s1 := by
  have hnc : pingViaNetCat W (contextWithTimeout W timeout s) p url s = some (r, s1) := by
    simpa [performPing, hhttps] using hp
  obtain ⟨t, ht⟩ := netCatTimeline_of_success W _ p url s s1 r hnc he
  have h3 := pingViaNetCat_of_timeline W _ p url s t ht
  rw [hnc] at h3
  refine ⟨t, ht, ?_, ?_, fun n st => pingLoop_succ_of_success W p url timeout n st s s1 r hp he⟩
  · split at h3 <;>
      · simp only [Option.some.injEq, Prod.mk.injEq] at h3
        rw [h3.1]
  · split at h3 <;> rename_i heq <;>
      · simp only [Option.some.injEq, Prod.mk.injEq] at h3
        rw [h3.1]
        simp [heq]

/-- In a plaintext run, the first and second results of the successful attempts are the samples
read off their timelines. -/
theorem successesOf_eq_plaintextSamples {σ : Type} (W : World σ) (p : Vendor σ) (url : String)
    (timeout : Nat) (hhttps : HasPrefix url "https:" = false) (n : Nat) (s s2 : σ)
    (rs : List ProbeResult) (hrun : attempts W p url timeout n s = some (rs, s2)) :
    (successesOf rs).map (fun r => (r.fst, r.snd)) = plaintextSamples W p url timeout n s := by
  induction n generalizing s rs s2 with
  | zero =>
    simp only [attempts, Option.some.injEq, Prod.mk.injEq] at hrun
    rw [← hrun.1]; rfl
  | succ n ih =>
    simp only [attempts] at hrun
    cases hp : performPing W (contextWithTimeout W timeout s) p url s with
    | none => simp [hp] at hrun
    | some x =>
      obtain ⟨r, s1⟩ := x
      simp only [hp] at hrun
      cases ha : attempts W p url timeout n s1 with
      | none => simp [ha] at hrun
      | some y =>
        obtain ⟨rs1, s3⟩ := y
        simp only [ha, Option.some.injEq, Prod.mk.injEq] at hrun
        have ih1 := ih s1 s3 rs1 ha
        rw [← hrun.1]
        simp only [plaintextSamples, hp]
        cases he : r.err with
        | none =>
          obtain ⟨t, ht, h1, h2, -⟩ :=
            performPing_plaintext_result W p url timeout s s1 r hhttps hp he
          simp only [ht, successesOf, List.filter_cons, he, Option.isNone_none, if_true,
            List.map_cons, NetCatTimeline.samples, ← h1, ← h2]
          rw [← ih1]; rfl
        | some e =>
          have hnt : netCatTimeline W (contextWithTimeout W timeout s) p url s = none := by
            cases ht : netCatTimeline W (contextWithTimeout W timeout s) p url s with
            | none => rfl
            | some t =>
              have h3 := pingViaNetCat_of_timeline W _ p url s t ht
              have hnc : pingViaNetCat W (contextWithTimeout W timeout s) p url s =
                  some (r, s1) := by
                simpa [performPing, hhttps] using hp
              rw [hnc] at h3
              split at h3 <;>
                · simp only [Option.some.injEq, Prod.mk.injEq] at h3
                  rw [h3.1] at he
                  simp at he
          simp only [hnt, successesOf, List.filter_cons, he, Option.isNone_some]
          rw [← ih1]; rfl

/-- C17, amended: in every run over a non-nil transport and a plaintext (non-https) URL with at
least one successful attempt, the engine records, for each successful attempt in attempt order,
the attempt's request RTT (second write to first peeked byte) as its sample in `RTTList`, from
which `RTT` and `MaxRTT` are computed, and the attempt's connect RTT (dial start to first byte;
0 when the status line could not be parsed) as its sample in `RequestList`, from which
`Request` and `MaxRequest` are computed. -/
theorem ping_plaintext_series {σ : Type} (W : World σ) (S : PingStats) (obj : Ping)
    (p : Vendor σ) (url : String) (withAvg timeout : Nat) (s s2 : σ) (rs : List ProbeResult)
    (hhttps : HasPrefix url "https:" = false)
    (hrun : attempts W p url timeout withAvg s = some (rs, s2))
    (hsucc : successesOf rs ≠ []) :
    ∃ obj', ping W S obj (some p) url withAvg timeout s = some (obj', s2) ∧
      (plaintextSamples W p url timeout withAvg s).length = (successesOf rs).length ∧
      obj'.RTTList = Slice.mk ((plaintextSamples W p url timeout withAvg s).map Prod.fst) ∧
      obj'.RTT = S.calcAvgPing obj'.RTTList ∧
      obj'.MaxRTT =
        ((plaintextSamples W p url timeout withAvg s).map Prod.fst).foldl structs.Max
          obj.MaxRTT ∧
      obj'.RequestList = Slice.mk ((plaintextSamples W p url timeout withAvg s).map Prod.snd) ∧
      obj'.Request = S.calcAvgPing obj'.RequestList ∧
      obj'.MaxRequest =
        ((plaintextSamples W p url timeout withAvg s).map Prod.snd).foldl structs.Max
          obj.MaxRequest := by
  have hs := successesOf_eq_plaintextSamples W p url timeout hhttps withAvg s s2 rs hrun
  have hfst : (successesOf rs).map (fun r => r.fst) =
      (plaintextSamples W p url timeout withAvg s).map Prod.fst := by
    rw [← hs, List.map_map]; rfl
  have hsnd : (successesOf rs).map (fun r => r.snd) =
      (plaintextSamples W p url timeout withAvg s).map Prod.snd := by
    rw [← hs, List.map_map]; rfl
  have hl1 := successesOf_map_len rs hsucc (fun r => r.fst)
  have hl2 := successesOf_map_len rs hsucc (fun r => r.snd)
  refine ⟨_, by rw [ping_eq, hrun]; rfl, by rw [← hs, List.length_map], ?_, ?_, ?_, ?_, ?_, ?_⟩
  · simp only [if_neg hsucc]
    rw [calculateFinalMetrics_RTTList, if_pos hl1, hfst]
  · simp only [if_neg hsucc]
    rw [calculateFinalMetrics_RTT S _ _ _ _ _ _ hl1, calculateFinalMetrics_RTTList, if_pos hl1]
  · rw [(calculateFinalMetrics_Max S _ _ _ _ _ _).1, ← hfst, List.foldl_map]
  · simp only [if_neg hsucc]
    rw [calculateFinalMetrics_RequestList, if_pos hl2, hsnd]
  · simp only [if_neg hsucc]
    rw [calculateFinalMetrics_Request S _ _ _ _ _ _ hl2, calculateFinalMetrics_RequestList,
      if_pos hl2]
  · rw [(calculateFinalMetrics_Max S _ _ _ _ _ _).2, ← hsnd, List.foldl_map]

/-- Witness of C17 (amended): a plaintext run of three attempts, the first dial refused, whose
two successful attempts have request RTT 3 ms and connect RTT 7 ms. -/
theorem ping_plaintext_series_witness :
    ∃ obj', ping simWorld specStats zeroPing (some simVendor) "http://host/" 3 1000
        ⟨[false, true, true], 0⟩ = some (obj', ⟨[], 21000000⟩) ∧
      (plaintextSamples simWorld simVendor "http://host/" 1000 3 ⟨[false, true, true], 0⟩).length
        = 2 ∧
      obj'.RTTList = Slice.mk [3, 3] ∧
      obj'.RTT = specStats.calcAvgPing obj'.RTTList ∧
      obj'.MaxRTT = 3 ∧
      obj'.RequestList = Slice.mk [7, 7] ∧
      obj'.Request = specStats.calcAvgPing obj'.RequestList ∧
      obj'.MaxRequest = 7 :=
  ping_plaintext_series simWorld specStats zeroPing simVendor "http://host/" 3 1000
    ⟨[false, true, true], 0⟩ ⟨[], 21000000⟩
    [⟨0, 0, 0, some "dial failed: refused"⟩, ⟨3, 7, 200, none⟩, ⟨3, 7, 200, none⟩]
    (by decide) (by decide) (by decide)

/-- C18: `FindBatchFromEntry` is `FindBatch` on the list of the entries' types: same length, same
order, the i-th extractor is `Find` of the i-th entry's type, whatever the other parameters
of the entries are. -/
theorem FindBatchFromEntry_spec (es : List SlaveRequestMatrixEntry) :
    FindBatchFromEntry es = FindBatch (es.map fun e => e.Type_) ∧
    (FindBatchFromEntry es).length = es.length ∧
    ∀ i : Nat, (FindBatchFromEntry es)[i]? = es[i]?.map fun e => Find e.Type_ := by
  refine ⟨by simp [FindBatchFromEntry, FindBatch, structs.Map],
    by simp [FindBatchFromEntry, structs.Map], fun i => by simp [FindBatchFromEntry, structs.Map]⟩

/-- C19: after a run over a non-nil transport with at least one successful attempt, `Jitter`
equals `RTTSD`, and both are `calcStdDevPing` of the `RTTList` of the result, whatever the result
object held before and whatever the helper computes. -/
theorem ping_jitter_eq_rttsd {σ : Type} (W : World σ) (S : PingStats) (obj : Ping) (p : Vendor σ)
    (url : String) (withAvg timeout : Nat) (s s2 : σ) (rs : List ProbeResult)
    (hrun : attempts W p url timeout withAvg s = some (rs, s2))
    (hsucc : successesOf rs ≠ []) :
    ∃ obj', ping W S obj (some p) url withAvg timeout s = some (obj', s2) ∧
      obj'.Jitter = obj'.RTTSD ∧ obj'.RTTSD = S.calcStdDevPing obj'.RTTList := by
  refine ⟨_, by rw [ping_eq, hrun]; rfl, ?_, ?_⟩
  · simp only [if_neg hsucc]
    rw [(calculateFinalMetrics_Jitter S _ _ _ _ _ _ (successesOf_map_len rs hsucc _)).1,
      (calculateFinalMetrics_Jitter S _ _ _ _ _ _ (successesOf_map_len rs hsucc _)).2]
  · simp only [if_neg hsucc]
    rw [(calculateFinalMetrics_Jitter S _ _ _ _ _ _ (successesOf_map_len rs hsucc _)).2,
      calculateFinalMetrics_RTTList, if_pos (successesOf_map_len rs hsucc _)]

/-- Witness of C19: a plaintext run of three attempts, the first dial refused, on a result object
that holds samples of an earlier run. -/
theorem ping_jitter_eq_rttsd_witness :
    ∃ obj', ping simWorld specStats usedPing (some simVendor) "http://host/" 3 1000
        ⟨[false, true, true], 0⟩ = some (obj', ⟨[], 21000000⟩) ∧
      obj'.Jitter = obj'.RTTSD ∧ obj'.RTTSD = specStats.calcStdDevPing obj'.RTTList :=
  ping_jitter_eq_rttsd simWorld specStats usedPing simVendor "http://host/" 3 1000
    ⟨[false, true, true], 0⟩ ⟨[], 21000000⟩
    [⟨0, 0, 0, some "dial failed: refused"⟩, ⟨3, 7, 200, none⟩, ⟨3, 7, 200, none⟩]
    (by decide) (by decide)

end MiaoSpeed
